import Mathlib

/-!
Verification of the intelligent_query RAG pipeline (src/src/app.py and
src/src/new_app.py) against its natural-language specification.

Strings are modelled as `List Char` (named `Text` below) so that Python's
slicing, splitting and stripping operations have direct executable
counterparts.  Python floats are modelled by exact rationals; Python's
`\s` character class and `str.strip` are modelled over the six ASCII
whitespace characters.  Library calls that are external to the repository
(sentence-transformer encoding, `json.loads`, `json.dumps`, Python's
`str()` builtin) are taken as function parameters of the embedded
definitions.
-/

/-- Python strings, modelled as lists of characters. -/
abbrev PyText := List Char

/-- The six ASCII whitespace characters matched by Python's `\s` and
stripped by `str.strip()`. -/
def isPyWs (c : Char) : Bool :=
  c = ' ' || c = '\t' || c = '\n' || c = '\r' || c = Char.ofNat 11 || c = Char.ofNat 12

/-- Python `str.strip()`: drop whitespace from both ends. -/
def pyStrip (t : PyText) : PyText :=
  ((t.dropWhile isPyWs).reverse.dropWhile isPyWs).reverse

/-- Python `text.split("\n\n")` (fixed two-newline separator). -/
def splitParasGo : PyText → PyText → List PyText
  | [], cur => [cur.reverse]
  | [c], cur => [(c :: cur).reverse]
  | c1 :: c2 :: rest, cur =>
    if c1 = '\n' ∧ c2 = '\n' then cur.reverse :: splitParasGo rest []
    else splitParasGo (c2 :: rest) (c1 :: cur)

/-- Python `text.split("\n\n")`. -/
def splitParas (t : PyText) : List PyText := splitParasGo t []

/-- Python `paragraph.split(". ")` (fixed dot-space separator). -/
def splitDotGo : PyText → PyText → List PyText
  | [], cur => [cur.reverse]
  | [c], cur => [(c :: cur).reverse]
  | c1 :: c2 :: rest, cur =>
    if c1 = '.' ∧ c2 = ' ' then cur.reverse :: splitDotGo rest []
    else splitDotGo (c2 :: rest) (c1 :: cur)

/-- Python `paragraph.split(". ")`. -/
def splitDot (t : PyText) : List PyText := splitDotGo t []

/-- `re.sub(r' +', ' ', text)`: collapse every maximal run of spaces to a
single space. -/
def collapseSpaces : PyText → PyText
  | [] => []
  | [c] => [c]
  | c1 :: c2 :: rest =>
    if c1 = ' ' ∧ c2 = ' ' then collapseSpaces (c2 :: rest)
    else c1 :: collapseSpaces (c2 :: rest)

/-- Single-pass scanner implementing `re.sub(r'\n\s*\n', '\n\n', text)`.
State: `inNl` is true while scanning the whitespace run that follows a
`'\n'`; `buf` holds (reversed) the non-newline whitespace seen since the
last `'\n'` of the run; `m` records whether the run contains a second
`'\n'` (i.e. whether the regex matched). -/
def collapseNlGo : PyText → Bool → PyText → Bool → PyText
  | [], false, _, _ => []
  | [], true, buf, m => (if m then ['\n', '\n'] else ['\n']) ++ buf.reverse
  | c :: rest, false, _, _ =>
    if c = '\n' then collapseNlGo rest true [] false
    else c :: collapseNlGo rest false [] false
  | c :: rest, true, buf, m =>
    if c = '\n' then collapseNlGo rest true [] true
    else if isPyWs c then collapseNlGo rest true (c :: buf) m
    else (if m then ['\n', '\n'] else ['\n']) ++ buf.reverse ++
      c :: collapseNlGo rest false [] false

/-- `re.sub(r'\n\s*\n', '\n\n', text)`. -/
def collapseNl (t : PyText) : PyText := collapseNlGo t false [] false

/-- Fuelled worker for Python `str.replace` (left-to-right,
non-overlapping).  The fuel is the length of the remaining input, which
strictly decreases on every step. -/
def pyReplaceGo : Nat → PyText → PyText → PyText → PyText
  | _, [], _, _ => []
  | 0, l, _, _ => l
  | f + 1, c :: rest, old, new =>
    if old ≠ [] ∧ old.isPrefixOf (c :: rest) then
      new ++ pyReplaceGo f (rest.drop (old.length - 1)) old new
    else c :: pyReplaceGo f rest old new

/-- Python `text.replace(old, new)` for a non-empty `old`. -/
def pyReplace (t old new : PyText) : PyText := pyReplaceGo t.length t old new

/-- First index at which `pat` occurs in `l` (Python `str.find`, with
`none` standing for Python's `-1`). -/
def findSub : PyText → PyText → Option Nat
  | [], pat => if pat = [] then some 0 else none
  | c :: rest, pat =>
    if pat.isPrefixOf (c :: rest) then some 0
    else (findSub rest pat).map (· + 1)

/-- Python `pat in l`. -/
def containsSub (l pat : PyText) : Bool := (findSub l pat).isSome

/-- Python `s[a:b]` for `0 ≤ a ≤ b`. -/
def pySlice (t : PyText) (a b : Nat) : PyText := (t.drop a).take (b - a)

/-- Decimal representation of a natural number (Python `str(i)` on a
non-negative int), via `Nat.toDigits`. -/
def natRepr (n : Nat) : PyText := Nat.toDigits 10 n

/-- Number of whitespace-separated words, Python `len(text.split())`. -/
def pyWordCountGo : PyText → Bool → Nat
  | [], _ => 0
  | c :: rest, inWord =>
    if isPyWs c then pyWordCountGo rest false
    else (if inWord then 0 else 1) + pyWordCountGo rest true

/-- Python `len(text.split())`. -/
def pyWordCount (t : PyText) : Nat := pyWordCountGo t false

/-- The whitespace-separated words of a Python string (`text.split()`). -/
def pyWordsGo : PyText → PyText → List PyText
  | [], cur => if cur = [] then [] else [cur.reverse]
  | c :: rest, cur =>
    if isPyWs c then
      (if cur = [] then [] else [cur.reverse]) ++ pyWordsGo rest []
    else pyWordsGo rest (c :: cur)

/-- Python `text.split()` (split on whitespace runs, dropping empties). -/
def pyWords (t : PyText) : List PyText := pyWordsGo t []

/-- Sentence-terminator test for `new_app.py`'s
`SENTENCE_SPLIT_PATTERN = re.compile(r'(?<=[.!?])\s+')`. -/
def isSentEnd (c : Char) : Bool := c = '.' || c = '!' || c = '?'

/-- Scanner implementing `re.split(r'(?<=[.!?])\s+', text)`.
`prev` is the previously scanned character (the lookbehind); `skip` is
true while consuming the whitespace run of a match. -/
def sentSplitGo : PyText → PyText → Char → Bool → List PyText
  | [], cur, _, _ => [cur.reverse]
  | c :: rest, cur, prev, true =>
    if isPyWs c then sentSplitGo rest cur prev true
    else sentSplitGo rest [c] c false
  | c :: rest, cur, prev, false =>
    if isPyWs c ∧ isSentEnd prev then cur.reverse :: sentSplitGo rest [] prev true
    else sentSplitGo rest (c :: cur) c false

/-- `new_app.py`'s sentence splitter `SENTENCE_SPLIT_PATTERN.split(p)`. -/
def sentSplit (t : PyText) : List PyText := sentSplitGo t [] (Char.ofNat 0) false

/-- True when the sentence-split regex has no match in `prev ++ t`
(no `[.!?]` immediately followed by whitespace). -/
def noSentBoundary : PyText → Char → Bool
  | [], _ => true
  | c :: rest, prev =>
    if isPyWs c ∧ isSentEnd prev then false else noSentBoundary rest c

/-- The whitespace suffix of a run that follows the run's last `'\n'`. -/
def wsAfterLastNl (run : PyText) : PyText :=
  (run.reverse.takeWhile (fun c => c ≠ '\n')).reverse

/-!
## Post-extraction text cleanup

`new_app.py` `clean_text_fast` (lines 180-185); the same four rules appear
inline in `app.py` `extract_text_from_pdf_fast` (lines 165-170):
two fixed substitutions, then `\n\s*\n -> \n\n`, then `' +' -> ' '`.
-/

/-- The two fixed OCR-artifact substitutions of `clean_text_fast`. -/
def fixArtifacts (t : PyText) : PyText :=
  pyReplace (pyReplace t ("iviviv".toList) [])
    ("Air Ambulasce".toList) ("Air Ambulance".toList)

/-- The whitespace-normalization stage of `clean_text_fast`:
`re.sub` of `\n\s*\n` then of `' +'`. -/
def wsNormalize (t : PyText) : PyText := collapseSpaces (collapseNl t)

/-- `new_app.py` `clean_text_fast` (and the identical inline cleanup of
`app.py`): artifact substitutions followed by whitespace normalization. -/
def clean_text_fast (t : PyText) : PyText := wsNormalize (fixArtifacts t)

/-!
## MD5 and the document cache key

`get_document_cache_key(url)` is `hashlib.md5(url.encode()).hexdigest()`
in both variants.  MD5 is implemented over naturals modulo `2^32`.
-/

/-- 32-bit truncation. -/
def m32 (n : Nat) : Nat := n % 4294967296

/-- 32-bit left rotation. -/
def rotl32 (x s : Nat) : Nat :=
  m32 (x % 2 ^ (32 - s) * 2 ^ s + x / 2 ^ (32 - s))

/-- Bitwise complement within 32 bits. -/
def not32 (x : Nat) : Nat := 4294967295 - x % 4294967296

/-- The 64 MD5 sine-derived constants. -/
def md5K : List Nat :=
  [3614090360, 3905402710, 606105819, 3250441966, 4118548399, 1200080426,
   2821735955, 4249261313, 1770035416, 2336552879, 4294925233, 2304563134,
   1804603682, 4254626195, 2792965006, 1236535329, 4129170786, 3225465664,
   643717713, 3921069994, 3593408605, 38016083, 3634488961, 3889429448,
   568446438, 3275163606, 4107603335, 1163531501, 2850285829, 4243563512,
   1735328473, 2368359562, 4294588738, 2272392833, 1839030562, 4259657740,
   2763975236, 1272893353, 4139469664, 3200236656, 681279174, 3936430074,
   3572445317, 76029189, 3654602809, 3873151461, 530742520, 3299628645,
   4096336452, 1126891415, 2878612391, 4237533241, 1700485571, 2399980690,
   4293915773, 2240044497, 1873313359, 4264355552, 2734768916, 1309151649,
   4149444226, 3174756917, 718787259, 3951481745]

/-- The MD5 per-round left-rotation amounts. -/
def md5S : List Nat :=
  [7, 12, 17, 22, 7, 12, 17, 22, 7, 12, 17, 22, 7, 12, 17, 22,
   5, 9, 14, 20, 5, 9, 14, 20, 5, 9, 14, 20, 5, 9, 14, 20,
   4, 11, 16, 23, 4, 11, 16, 23, 4, 11, 16, 23, 4, 11, 16, 23,
   6, 10, 15, 21, 6, 10, 15, 21, 6, 10, 15, 21, 6, 10, 15, 21]

/-- The MD5 round function (F, G, H, I by round quarter). -/
def md5F (i b c d : Nat) : Nat :=
  if i < 16 then Nat.lor (Nat.land b c) (Nat.land (not32 b) d)
  else if i < 32 then Nat.lor (Nat.land d b) (Nat.land (not32 d) c)
  else if i < 48 then Nat.xor b (Nat.xor c d)
  else Nat.xor c (Nat.lor b (not32 d))

/-- The MD5 message-word index for step `i`. -/
def md5G (i : Nat) : Nat :=
  if i < 16 then i
  else if i < 32 then (5 * i + 1) % 16
  else if i < 48 then (3 * i + 5) % 16
  else (7 * i) % 16

/-- One MD5 step. -/
def md5Step (M : List Nat) (st : Nat × Nat × Nat × Nat) (i : Nat) :
    Nat × Nat × Nat × Nat :=
  let (a, b, c, d) := st
  let f := m32 (md5F i b c d + a + (md5K.getD i 0) + (M.getD (md5G i) 0))
  (d, m32 (b + rotl32 f (md5S.getD i 0)), b, c)

/-- Process one 16-word block. -/
def md5Block (st : Nat × Nat × Nat × Nat) (M : List Nat) :
    Nat × Nat × Nat × Nat :=
  let (a0, b0, c0, d0) := st
  let (a, b, c, d) := (List.range 64).foldl (md5Step M) st
  (m32 (a0 + a), m32 (b0 + b), m32 (c0 + c), m32 (d0 + d))

/-- Little-endian split of a byte list into 32-bit words. -/
def bytesToWords : List Nat → List Nat
  | b0 :: b1 :: b2 :: b3 :: rest =>
    (b0 + 256 * b1 + 65536 * b2 + 16777216 * b3) :: bytesToWords rest
  | _ => []

/-- Split a list into chunks of 64 elements (structural, fuelled by the
list itself). -/
def chunks64 (l : List Nat) : List (List Nat) :=
  if l.length ≤ 64 then [l]
  else l.take 64 :: chunks64 (l.drop 64)
termination_by l.length
decreasing_by
  simp only [List.length_drop]
  omega

/-- MD5 padding: `0x80`, zeros to 56 mod 64, then the 64-bit little-endian
bit length. -/
def md5Pad (msg : List Nat) : List Nat :=
  let lenBits := 8 * msg.length
  let padLen := (119 - msg.length % 64) % 64 + 1
  msg ++ 128 :: List.replicate (padLen - 1) 0 ++
    (List.range 8).map (fun i => lenBits / 256 ^ i % 256)

/-- Little-endian bytes of a 32-bit word. -/
def wordBytes (w : Nat) : List Nat :=
  [w % 256, w / 256 % 256, w / 65536 % 256, w / 16777216 % 256]

/-- Lower-case hex digit. -/
def hexDigit (n : Nat) : Char :=
  if n < 10 then Char.ofNat (48 + n) else Char.ofNat (87 + n)

/-- Lower-case hex of one byte. -/
def byteHex (b : Nat) : PyText := [hexDigit (b / 16), hexDigit (b % 16)]

/-- MD5 digest of a byte string, as a lower-case hex string. -/
def md5Hex (msg : List Nat) : PyText :=
  let blocks := (chunks64 (md5Pad msg)).map bytesToWords
  let (a, b, c, d) :=
    blocks.foldl md5Block (1732584193, 4023233417, 2562383102, 271733878)
  ((wordBytes a ++ wordBytes b ++ wordBytes c ++ wordBytes d).map byteHex).flatten

/-- UTF-8 encoding of a character (Python `str.encode()`). -/
def utf8Char (c : Char) : List Nat :=
  let n := c.toNat
  if n < 128 then [n]
  else if n < 2048 then [192 + n / 64, 128 + n % 64]
  else if n < 65536 then [224 + n / 4096, 128 + n / 64 % 64, 128 + n % 64]
  else [240 + n / 262144, 128 + n / 4096 % 64, 128 + n / 64 % 64, 128 + n % 64]

/-- UTF-8 encoding of a Python string. -/
def utf8Encode (t : PyText) : List Nat := t.flatMap utf8Char

/-- `get_document_cache_key(url)` =
`hashlib.md5(url.encode()).hexdigest()` (both variants). -/
def get_document_cache_key (url : PyText) : PyText := md5Hex (utf8Encode url)

/-!
## Chunkers

`app.py` `create_document_embeddings` lines 262-296 (size target 600,
split on `". "`, final filter at 100 characters) and `new_app.py`
`create_optimized_chunks` lines 318-355 (size target 500, regex sentence
split, inline 80-character floor).
-/

/-- The sentence-packing loop of `app.py` (lines 278-293): greedily append
`sentence + ". "` while the buffer stays within 600 characters, flushing
the stripped buffer otherwise; flush the final buffer after the loop. -/
def packSentencesApp : List PyText → PyText → List PyText
  | [], cur => if pyStrip cur ≠ [] then [pyStrip cur] else []
  | s :: rest, cur =>
    if (cur ++ s ++ ('.' :: [' '])).length ≤ 600 then
      packSentencesApp rest (cur ++ s ++ ('.' :: [' ']))
    else
      (if pyStrip cur ≠ [] then [pyStrip cur] else []) ++
        packSentencesApp rest (s ++ ('.' :: [' ']))

/-- Chunking of one (stripped, non-empty) paragraph in `app.py`. -/
def chunkParagraphApp (p : PyText) : List PyText :=
  if p.length ≤ 600 then [p] else packSentencesApp (splitDot p) []

/-- The full chunking stage of `app.py` `create_document_embeddings`:
paragraph split, strip, skip empties, per-paragraph chunking, then the
final `len(chunk) >= 100` filter. -/
def create_document_chunks_app (t : PyText) : List PyText :=
  ((((splitParas t).map pyStrip).filter (· ≠ [])).flatMap chunkParagraphApp).filter
    (fun c => 100 ≤ c.length)

/-- The sentence-packing loop of `new_app.py` `create_optimized_chunks`
(lines 333-352): strip each sentence, skip empties, greedily extend the
buffer (joined by a single space) within 500 characters, emitting the
buffer only when it reaches the 80-character floor. -/
def packSentencesNew : List PyText → PyText → List PyText
  | [], cur => if cur ≠ [] ∧ 80 ≤ cur.length then [cur] else []
  | s :: rest, cur =>
    if pyStrip s = [] then packSentencesNew rest cur
    else if (cur ++ (if cur ≠ [] then [' '] else []) ++ pyStrip s).length ≤ 500 then
      packSentencesNew rest (cur ++ (if cur ≠ [] then [' '] else []) ++ pyStrip s)
    else
      (if cur ≠ [] ∧ 80 ≤ cur.length then [cur] else []) ++
        packSentencesNew rest (pyStrip s)

/-- Chunking of one (stripped, non-empty) paragraph in `new_app.py`. -/
def chunkParagraphNew (p : PyText) : List PyText :=
  if p.length ≤ 500 then (if 80 ≤ p.length then [p] else [])
  else packSentencesNew (sentSplit p) []

/-- `new_app.py` `create_optimized_chunks`. -/
def create_optimized_chunks (t : PyText) : List PyText :=
  (((splitParas t).map pyStrip).filter (· ≠ [])).flatMap chunkParagraphNew

/-!
## Embedding construction (the paths relevant to empty documents)

`app.py` `create_document_embeddings` evaluates
`sum(len(c) for c in chunks) // len(chunks)` in a logging call (line 299)
before encoding: with zero chunks this raises `ZeroDivisionError`.
`new_app.py` guards the average (`if chunks else 0`, line 365) but then
evaluates `all_embeddings[0]` on the empty batch list (line 392), raising
`IndexError`.  Neither raises an `EmptyDocumentError`.  The embedding
model (`model.encode`) is external and passed as a parameter; batching
concatenation (`np.vstack`) is modelled by mapping the encoder over the
chunks.
-/

/-- `app.py` `create_document_embeddings`, with the external sentence
transformer as parameter `encode`.  Returns the chunks and embeddings, or
the uncaught Python exception raised on the way. -/
def create_document_embeddings_app (encode : PyText → List Int)
    (t : PyText) : Except PyText (List PyText × List (List Int)) :=
  let chunks := create_document_chunks_app t
  if chunks.length = 0 then
    Except.error ("ZeroDivisionError: integer division or modulo by zero".toList)
  else
    Except.ok (chunks, chunks.map encode)

/-- `new_app.py` `create_document_embeddings`, with the external encoder
as a parameter. -/
def create_document_embeddings_new (encode : PyText → List Int)
    (t : PyText) : Except PyText (List PyText × List (List Int)) :=
  let chunks := create_optimized_chunks t
  if chunks.length = 0 then
    Except.error ("IndexError: list index out of range".toList)
  else
    Except.ok (chunks, chunks.map encode)

/-!
## Token estimation

`app.py` `estimate_tokens` (lines 331-358) and `new_app.py`
`estimate_tokens` / `estimate_tokens_cached` (lines 406-420).  Python
float arithmetic is modelled by exact rationals; `int()` on the
non-negative results is the floor.
-/

/-- The punctuation set of `app.py` `estimate_tokens`:
the characters of `'.,;:!?()[]{}"\'-'`. -/
def isPunctApp (c : Char) : Bool :=
  c = '.' || c = ',' || c = ';' || c = ':' || c = '!' || c = '?' ||
  c = '(' || c = ')' || c = '[' || c = ']' || c = Char.ofNat 123 ||
  c = Char.ofNat 125 || c = '"' || c = Char.ofNat 39 || c = '-'

/-- Python `str.isdigit()` (ASCII digits; words from `split()` are
non-empty). -/
def pyIsDigit (w : PyText) : Bool := w ≠ [] && w.all Char.isDigit

/-- `app.py` `estimate_tokens`. -/
def estimate_tokens_app (t : PyText) : Nat :=
  let chars : ℚ := t.length
  let words : ℚ := pyWordCount t
  let punct : ℚ := (t.filter isPunctApp).length
  let numbers : ℚ := ((pyWords t).filter pyIsDigit).length
  let base : ℚ := chars / 4
  let base2 : ℚ := if 0 < words ∧ 6 < chars / words then base * (6 / 5) else base
  (Int.floor (base2 + punct * (1 / 2) + numbers * (3 / 10))).toNat

/-- `new_app.py` `estimate_tokens` (via `estimate_tokens_cached`, whose
hash argument is only a cache key):
`int(char_count / 3.8 + word_count * 0.1)`. -/
def estimate_tokens_new (t : PyText) : Nat :=
  (Int.floor ((t.length : ℚ) * 10 / 38 + (pyWordCount t : ℚ) / 10)).toNat

/-!
## Prompt construction and the token-budget fallback

`app.py` `generate_response` lines 427-468 and `new_app.py`
`generate_response` lines 508-552.  Both build a full prompt from the
question and all retrieved chunks; if the estimated token count exceeds
8000 they rebuild a short prompt from `relevant_chunks[0][:300]` only
(an `IndexError`, modelled as `none`, if the chunk list is empty).
-/

/-- `chr(10).join([f"{i+1}. {chunk}" ...])`. -/
def numberedContext (rcs : List PyText) : PyText :=
  List.intercalate ['\n']
    (rcs.enum.map (fun p => natRepr (p.1 + 1) ++ ('.' :: [' ']) ++ p.2))

/-- The fixed text of the `app.py` full prompt before the question. -/
def promptAppPre : PyText :=
  ("You are answering questions about an insurance policy document. Provide clear, direct answers based on the information provided.\n\nQuestion: ".toList)

/-- The fixed text of the `app.py` full prompt between question and
context. -/
def promptAppMid : PyText := ("\n\nDocument information:\n".toList)

/-- The fixed text of the `app.py` full prompt after the context. -/
def promptAppPost : PyText :=
  ("\n\nInstructions:\n1. Give a direct, natural answer as if you are an insurance expert\n2. Include specific numbers, dates, percentages, and conditions when mentioned\n3. Write in a clear, professional tone\n4. Do not mention \"according to the document\" or \"based on excerpts\"\n5. Present the information as factual statements\n6. Keep the answer concise but complete\n7. If the information is not available, state \"The information is not available in the policy document.\"\n\nAnswer format (JSON):\n\x7b\n    \"justification\": \"Your direct, natural answer presenting the information as facts\"\n\x7d\n\nProvide a clear, factual answer about the policy.".toList)

/-- `app.py` full prompt (lines 428-449). -/
def full_prompt_app (query : PyText) (rcs : List PyText) : PyText :=
  promptAppPre ++ query ++ promptAppMid ++ numberedContext rcs ++ promptAppPost

/-- The fixed text of the `new_app.py` full prompt before the context. -/
def promptNewPre : PyText :=
  ("You are an expert insurance policy analyst. Provide concise yet comprehensive answers with maximum numerical precision.\n\nCRITICAL REQUIREMENTS:\n- For yes/no questions: Start with \x27Yes,\x27 or \x27No,\x27 then provide essential explanation\n- Include ALL key numbers: exact days, months, years, percentages, amounts\n- State important plan variations (Plan A vs Plan B vs Plan C) with key differences only\n- Include essential age limits, waiting periods, and main coverage conditions\n- Quote main benefit amounts, caps, and limits with numbers\n- Mention only critical exceptions and key conditions\n- Keep responses concise-medium length (50 words max) but include all essential details\n\nANSWER FORMAT:\n- Yes/No questions: \x27Yes, [key explanation with specifics]\x27 or \x27No, [key explanation with specifics]\x27\n- Other questions: Direct answer with essential numerical details\n- Focus on: main timeframes, key percentages, important plan differences, primary limits\n- Include only the most relevant conditions and exceptions\n- Avoid excessive bullet points and sub-details\n\nIMPORTANT:\n- Do NOT include phrases like \x27according to the document\x27, \x27as per the policy\x27, or any reference to the source. Only give the direct answer.\n\nDocument Context:\n".toList)

/-- The fixed text of the `new_app.py` full prompt between context and
question. -/
def promptNewMid : PyText := ("\n\nQuestion: ".toList)

/-- The fixed text of the `new_app.py` full prompt after the question. -/
def promptNewPost : PyText :=
  ("\n\nConcise answer with essential details and maximum numerical accuracy:".toList)

/-- `new_app.py` full prompt (lines 509-535). -/
def full_prompt_new (query : PyText) (rcs : List PyText) : PyText :=
  promptNewPre ++ numberedContext rcs ++ promptNewMid ++ query ++ promptNewPost

/-- The fixed text of the fallback prompt (identical in both variants)
before the question. -/
def shortPromptPre : PyText :=
  ("Answer this insurance policy question directly and naturally.\n\nQuestion: ".toList)

/-- The fixed text of the fallback prompt between question and chunk. -/
def shortPromptMid : PyText := ("\n\nPolicy information: ".toList)

/-- The fixed text of the fallback prompt after the truncated chunk. -/
def shortPromptPost : PyText :=
  ("...\n\nProvide a direct, factual answer. Include specific details when mentioned.\n\nFormat: \x7b\"justification\": \"Your direct answer presenting the policy information as facts\"\x7d".toList)

/-- The fallback prompt built from `relevant_chunks[0][:300]`
(`app.py` lines 460-468, `new_app.py` lines 544-552). -/
def short_prompt (query c0 : PyText) : PyText :=
  shortPromptPre ++ query ++ shortPromptMid ++ c0.take 300 ++ shortPromptPost

/-- The prompt actually sent by `app.py` `generate_response`: the full
prompt, or — when its estimated tokens exceed 8000 — the fallback prompt
(`none` models the `IndexError` on an empty chunk list). -/
def generate_prompt_app (query : PyText) (rcs : List PyText) : Option PyText :=
  let p := full_prompt_app query rcs
  if 8000 < estimate_tokens_app p then
    match rcs with
    | [] => none
    | c0 :: _ => some (short_prompt query c0)
  else some p

/-- The prompt actually sent by `new_app.py` `generate_response`. -/
def generate_prompt_new (query : PyText) (rcs : List PyText) : Option PyText :=
  let p := full_prompt_new query rcs
  if 8000 < estimate_tokens_new p then
    match rcs with
    | [] => none
    | c0 :: _ => some (short_prompt query c0)
  else some p

/-!
## LLM output normalization

`app.py` `generate_response` lines 499-520 and `new_app.py` lines 573-594:
strip Markdown code fences, attempt `json.loads`, and on a parse failure
wrap the (stripped) text into `{"justification": text}`.  `json.loads`
and `json.dumps` are external library functions, passed as parameters.
-/

/-- JSON values, the codomain of the external `json.loads`. -/
inductive PyJson where
  | null : PyJson
  | bool (b : Bool) : PyJson
  | num (q : ℚ) : PyJson
  | str (s : PyText) : PyJson
  | arr (xs : List PyJson) : PyJson
  | obj (fields : List (PyText × PyJson)) : PyJson

/-- The code-fence stripping of `new_app.py` `generate_response`
(lines 577-587): locate a ```` ```json ```` (or ```` ``` ````) opener,
find the next ```` ``` ```` after it, and when `end > start` keep the
stripped text between them; otherwise leave the text unchanged. -/
def strip_code_fences (t : PyText) : PyText :=
  match findSub t ("```json".toList) with
  | some s0 =>
    let start := s0 + 7
    (match findSub (t.drop start) ("```".toList) with
     | some off => if 0 < off then pyStrip (pySlice t start (start + off)) else t
     | none => t)
  | none =>
    match findSub t ("```".toList) with
    | some s0 =>
      let start := s0 + 3
      (match findSub (t.drop start) ("```".toList) with
       | some off => if 0 < off then pyStrip (pySlice t start (start + off)) else t
       | none => t)
    | none => t

/-- The parse-and-recover step of `generate_response` (both variants):
strict JSON parse of the fence-stripped text, wrapping the text into a
single-field object on failure.  Always returns a serialized result,
never an error. -/
def generate_response_parse (parse : PyText → Option PyJson)
    (dumps : PyJson → PyText) (t : PyText) : PyText :=
  let t1 := strip_code_fences t
  match parse t1 with
  | some j => dumps j
  | none => dumps (PyJson.obj [("justification".toList, PyJson.str t1)])

/-!
## Per-question processing and fan-out

`new_app.py` `process_question` (lines 817-842), the semaphore-bounded
`asyncio.gather` fan-out and the `return_exceptions` post-pass
(lines 844-863, 851-881).  The outcome of the per-question body
(`generate_response_async` plus everything before the inner `try`) is a
parameter: either a response string or a raised exception message.
-/

/-- Outcome of evaluating one question's body: the LLM response text, or
a raised Python exception message. -/
inductive QOutcome where
  | ok (resp : PyText) : QOutcome
  | exc (msg : PyText) : QOutcome

/-- Python type name of a JSON value (for the `AttributeError` message
raised by `result.get` on a non-dict). -/
def pyTypeName : PyJson → PyText
  | PyJson.null => ("NoneType".toList)
  | PyJson.bool _ => ("bool".toList)
  | PyJson.num q => if q.den = 1 then ("int".toList) else ("float".toList)
  | PyJson.str _ => ("str".toList)
  | PyJson.arr _ => ("list".toList)
  | PyJson.obj _ => ("dict".toList)

/-- The `AttributeError` message of `result.get(...)` on a non-dict. -/
def attrErrMsg (j : PyJson) : PyText :=
  Char.ofNat 39 :: pyTypeName j ++
    (Char.ofNat 39 :: (" object has no attribute ".toList ++
      (Char.ofNat 39 :: ("get".toList ++ [Char.ofNat 39]))))

/-- First binding of a key in a JSON object (`dict.get`; keys produced by
`json.loads` are unique). -/
def assocField (fields : List (PyText × PyJson)) (k : PyText) : Option PyJson :=
  (fields.find? (fun p => p.1 = k)).map (·.2)

/-- The answer-extraction body of `process_question` (new_app lines
825-836): `result.get('justification')` — an `AttributeError` on
non-dicts — returned when a truthy string, else the space-join of the
dict's values via `str()` (parameter `pyStr`). -/
def extract_answer (pyStr : PyJson → PyText) (j : PyJson) :
    Except PyText PyText :=
  match j with
  | PyJson.obj fields =>
    Except.ok
      (match assocField fields ("justification".toList) with
       | some (PyJson.str s) =>
         if s ≠ [] then s
         else List.intercalate [' '] (fields.map (fun p => pyStr p.2))
       | _ => List.intercalate [' '] (fields.map (fun p => pyStr p.2)))
  | j => Except.error (attrErrMsg j)

/-- `new_app.py` `process_question`: the outer `try` converts any
exception — from the question body or from answer extraction — into an
error-string answer; a `JSONDecodeError` of the inner `try` returns the
raw response. -/
def process_question (parse : PyText → Option PyJson)
    (pyStr : PyJson → PyText) (o : QOutcome) : PyText :=
  match o with
  | QOutcome.exc e => ("Error processing question: ".toList) ++ e
  | QOutcome.ok resp =>
    match parse resp with
    | none => resp
    | some j =>
      match extract_answer pyStr j with
      | Except.ok a => a
      | Except.error e => ("Error processing question: ".toList) ++ e

/-- `asyncio.gather` result collection: each completing task writes its
answer into its own input slot; `order` is the order in which the tasks
complete. -/
def gather_fill (n : Nat) (ans : Nat → PyText) (order : List Nat) :
    List (Option PyText) :=
  order.foldl (fun acc i => acc.set i (some (ans i))) (List.replicate n none)

/-- The answers array assembled by `new_app.py` `hackrx_run` after the
document is resolved: one `process_question` task per question, gathered
in completion order `order` into input-order slots.  (`process_question`
catches every exception, so the `return_exceptions` post-pass finds only
strings, which it keeps unchanged.) -/
def hackrx_answers (parse : PyText → Option PyJson)
    (pyStr : PyJson → PyText) (qs : List PyText)
    (run : Nat → PyText → QOutcome) (order : List Nat) : List PyText :=
  (gather_fill qs.length
      (fun i => process_question parse pyStr (run i (qs.getD i [])))
      order).map (fun s => s.getD [])

/-- The HTTP response of `hackrx_run` once the document is resolved:
status 200 with the full answers array. -/
def hackrx_response (parse : PyText → Option PyJson)
    (pyStr : PyJson → PyText) (qs : List PyText)
    (run : Nat → PyText → QOutcome) (order : List Nat) :
    Nat × List PyText :=
  (200, hackrx_answers parse pyStr qs run order)

/-!
## Semantic retrieval

`app.py` `retrieve_relevant_chunks` (lines 376-387, `IndexFlatL2`,
truncation at 500) and `new_app.py` (lines 445-464, `IndexFlatIP` over
normalized embeddings, truncation at 400, with the `i < len(chunks)`
guard).  A FAISS flat index search returns the `min(k, n)` best labels in
similarity order and pads the remaining `k - n` labels with `-1`; the
query embedding is a parameter.
-/

/-- Stable insertion of index `i` into a list ranked by `key` (ties by
index). -/
def insertRanked (key : Nat → Int) (i : Nat) : List Nat → List Nat
  | [] => [i]
  | j :: rest =>
    if key i < key j ∨ (key i = key j ∧ i < j) then i :: j :: rest
    else j :: insertRanked key i rest

/-- Indices `0..n-1` sorted by ascending `key`. -/
def argsortBy (key : Nat → Int) (n : Nat) : List Nat :=
  (List.range n).foldr (insertRanked key) []

/-- FAISS flat-index search on precomputed ranking keys (ascending):
best `min(k, n)` labels, then `-1` padding. -/
def faissSearch (keys : List Int) (k : Nat) : List Int :=
  ((argsortBy (fun i => keys.getD i 0) keys.length).map Int.ofNat).take k ++
    List.replicate (k - keys.length) (-1)

/-- Squared L2 distance. -/
def sqDistL2 (v w : List Int) : Int :=
  (List.zipWith (fun a b => (a - b) * (a - b)) v w).foldl (· + ·) 0

/-- Inner product. -/
def dotIP (v w : List Int) : Int :=
  (List.zipWith (· * ·) v w).foldl (· + ·) 0

/-- `IndexFlatL2.search`: ascending squared distance. -/
def faiss_search_l2 (xs : List (List Int)) (q : List Int) (k : Nat) :
    List Int :=
  faissSearch (xs.map (sqDistL2 q)) k

/-- `IndexFlatIP.search`: descending inner product. -/
def faiss_search_ip (xs : List (List Int)) (q : List Int) (k : Nat) :
    List Int :=
  faissSearch (xs.map (fun v => -dotIP q v)) k

/-- Python list indexing `l[i]`, with negative indices counting from the
end and `none` for an `IndexError`. -/
def pyIndex {α : Type} (l : List α) (i : Int) : Option α :=
  if 0 ≤ i then l.get? i.toNat
  else if 0 ≤ (l.length : Int) + i then l.get? ((l.length : Int) + i).toNat
  else none

/-- Chunk truncation "to prevent token overflow". -/
def truncChunk (limit : Nat) (c : PyText) : PyText :=
  if limit < c.length then c.take limit ++ ("...".toList) else c

/-- `app.py` `retrieve_relevant_chunks` with the query embedding `qv` as
parameter: search, then `chunks[i]` for every returned label. -/
def retrieve_relevant_chunks_app (chunks : List PyText)
    (embs : List (List Int)) (qv : List Int) (k : Nat) :
    Option (List PyText) :=
  (faiss_search_l2 embs qv k).mapM
    (fun i => (pyIndex chunks i).map (truncChunk 500))

/-- `new_app.py` `retrieve_relevant_chunks`: same, with the
`if i < len(chunks)` guard before indexing. -/
def retrieve_relevant_chunks_new (chunks : List PyText)
    (embs : List (List Int)) (qv : List Int) (k : Nat) :
    Option (List PyText) :=
  ((faiss_search_ip embs qv k).filter
      (fun i => i < (chunks.length : Int))).mapM
    (fun i => (pyIndex chunks i).map (truncChunk 400))

/-!
## Rate limiting, authentication and request validation

`new_app.py` `SlidingWindowRateLimit.is_allowed` (lines 669-681),
`verify_bearer_token` (lines 711-723) and the validation prelude of
`hackrx_run` (lines 755-785).
-/

/-- `SlidingWindowRateLimit.is_allowed`: prune timestamps outside the
trailing window, reject at the threshold, otherwise record `now`. -/
def rate_limit_is_allowed (maxRequests : Nat) (window : ℚ)
    (times : List ℚ) (now : ℚ) : Bool × List ℚ :=
  let pruned := times.filter (fun rt => now - rt < window)
  if maxRequests ≤ pruned.length then (false, pruned)
  else (true, pruned ++ [now])

/-- `verify_bearer_token(authorization)`: the configured token and the
request header are both optional environment inputs; returns the error
message, or `none` on success. -/
def verify_bearer_token (required auth : Option PyText) : Option PyText :=
  match required with
  | none =>
    some ("HACKRX_BEARER_TOKEN environment variable is not configured.".toList)
  | some req =>
    if req = [] then
      some ("HACKRX_BEARER_TOKEN environment variable is not configured.".toList)
    else
      match auth with
      | none => some ("Missing or invalid Authorization header.".toList)
      | some a =>
        if ¬ (("Bearer ".toList).isPrefixOf a) then
          some ("Missing or invalid Authorization header.".toList)
        else if pyStrip (a.drop 7) ≠ req then
          some ("Invalid Bearer token.".toList)
        else none

/-- Python-falsy test for an optional string body field. -/
def pyFalsyStr : Option PyText → Bool
  | none => true
  | some t => t = []

/-- `not questions or not isinstance(questions, list) or len == 0`
(a non-list body value is rejected by FastAPI's own coercion and is out
of scope of this embedding). -/
def questionsBad : Option (List PyText) → Bool
  | none => true
  | some qs => qs = []

/-- `documents.startswith(('http://', 'https://'))`. -/
def startsWithHttp (t : PyText) : Bool :=
  (("http://".toList).isPrefixOf t) || (("https://".toList).isPrefixOf t)

/-- The validation prelude of `new_app.py` `hackrx_run`, in source order:
rate limit (429), bearer token (401), `documents` present (400),
`questions` a non-empty list (400), URL scheme (400); `none` means the
request proceeds. -/
def hackrx_validate (times : List ℚ) (now : ℚ)
    (required auth documents : Option PyText)
    (questions : Option (List PyText)) : Option (Nat × PyText) :=
  if (rate_limit_is_allowed 20 60 times now).1 = false then
    some (429, ("Rate limit exceeded. Please try again later.".toList))
  else
    match verify_bearer_token required auth with
    | some err => some (401, err)
    | none =>
      if pyFalsyStr documents then
        some (400, ("Missing \x27documents\x27 parameter. Please provide a URL to the document.".toList))
      else if questionsBad questions then
        some (400, ("Questions must be a non-empty list.".toList))
      else if ¬ startsWithHttp (documents.getD []) then
        some (400, ("Documents parameter must be a valid URL.".toList))
      else none

/-- The validation order claimed by the specification: rate limit, auth,
`documents` present *and* an http(s) URL, then `questions`; each check
reported with the code's message for the failing condition. -/
def spec_order_validate (times : List ℚ) (now : ℚ)
    (required auth documents : Option PyText)
    (questions : Option (List PyText)) : Option (Nat × PyText) :=
  if (rate_limit_is_allowed 20 60 times now).1 = false then
    some (429, ("Rate limit exceeded. Please try again later.".toList))
  else
    match verify_bearer_token required auth with
    | some err => some (401, err)
    | none =>
      if pyFalsyStr documents then
        some (400, ("Missing \x27documents\x27 parameter. Please provide a URL to the document.".toList))
      else if ¬ startsWithHttp (documents.getD []) then
        some (400, ("Documents parameter must be a valid URL.".toList))
      else if questionsBad questions then
        some (400, ("Questions must be a non-empty list.".toList))
      else none

/-!
## The document cache

`new_app.py` `cleanup_expired_cache`, `get_cached_document`,
`cache_document` (lines 82-122) and the cache resolution step of
`hackrx_run` (lines 790-814).  The cache is an insertion-ordered map of
cache key to the processed document plus its insertion timestamp; the
processed document type and the build pipeline
(download → extract → chunk → embed) are parameters.  The third result
component counts invocations of the build pipeline.
-/

/-- One cache entry: key, processed document, insertion timestamp. -/
structure CachedDoc (α : Type) where
  key : PyText
  doc : α
  timestamp : ℚ
  deriving Repr

/-- `cleanup_expired_cache`: drop entries older than the 3600-second
TTL. -/
def cleanup_expired_cache {α : Type} (now : ℚ) (st : List (CachedDoc α)) :
    List (CachedDoc α) :=
  st.filter (fun e => ¬ (3600 < now - e.timestamp))

/-- `_document_cache.get(cache_key)`. -/
def lookup_cache {α : Type} (k : PyText) (st : List (CachedDoc α)) :
    Option α :=
  (st.find? (fun e => e.key = k)).map (fun e => e.doc)

/-- Capacity eviction of `cache_document`: remove the first entry with
the minimal timestamp (`min(timestamps, key=get)`). -/
def remove_oldest {α : Type} (st : List (CachedDoc α)) :
    List (CachedDoc α) :=
  match (st.map (fun e => e.timestamp)).min? with
  | none => st
  | some m => st.eraseP (fun e => decide (e.timestamp = m))

/-- `cache_document`: evict when at the capacity of 10, then insert. -/
def cache_document {α : Type} (now : ℚ) (k : PyText) (d : α)
    (st : List (CachedDoc α)) : List (CachedDoc α) :=
  (if 10 ≤ st.length then remove_oldest st else st) ++ [⟨k, d, now⟩]

/-- The document-resolution step of `hackrx_run`: cleanup, lookup by
`get_document_cache_key`; on a hit return the cached document unchanged,
on a miss run the build pipeline once and cache the result.  Returns the
document, the new cache state, and the number of builds performed. -/
def resolve_document {α : Type} (build : PyText → α) (now : ℚ)
    (st : List (CachedDoc α)) (url : PyText) :
    α × List (CachedDoc α) × Nat :=
  let st1 := cleanup_expired_cache now st
  match lookup_cache (get_document_cache_key url) st1 with
  | some d => (d, st1, 0)
  | none =>
    let d := build url
    (d, cache_document now (get_document_cache_key url) d st1, 1)

/-!
## Auxiliary predicates used by the proofs
-/

/-- Every character of `l` is (Python) whitespace. -/
def AllWs (l : PyText) : Prop := ∀ c ∈ l, isPyWs c = true

/-- `l` contains no newline. -/
def NlFree (l : PyText) : Prop := '\n' ∉ l

/-- The head of `l`, if any, is not whitespace. -/
def NonWsHead (l : PyText) : Prop := ∀ c, l.head? = some c → isPyWs c = false

/-!
# Theorems
-/

/-!
## C1 — retrieval with `k` exceeding the number of chunks

The claim asserts that the retriever then returns exactly the `n`
available chunks with no duplicates.  In fact a FAISS flat index pads the
missing labels with `-1`, and both retrievers resolve `-1` through Python
negative indexing to the *last* chunk (`new_app.py`'s
`if i < len(chunks)` guard also admits `-1`), so the result has length
`k` and duplicates the last chunk.
-/

/-- C1: with 2 chunks and `k = 3`, both `retrieve_relevant_chunks`
variants return three chunks — the two available ones followed by a
duplicate of the last — instead of exactly the two available chunks;
the returned list is not duplicate-free. -/
theorem retrieve_k_exceeding_chunks_duplicates :
    retrieve_relevant_chunks_app [("alpha".toList), ("beta".toList)]
        [[0], [10]] [1] 3 =
      some [("alpha".toList), ("beta".toList), ("beta".toList)] ∧
    retrieve_relevant_chunks_new [("alpha".toList), ("beta".toList)]
        [[5], [1]] [1] 3 =
      some [("alpha".toList), ("beta".toList), ("beta".toList)] ∧
    retrieve_relevant_chunks_app [("alpha".toList), ("beta".toList)]
        [[0], [10]] [1] 3 ≠
      some [("alpha".toList), ("beta".toList)] ∧
    ¬ ([("alpha".toList), ("beta".toList), ("beta".toList)] : List PyText).Nodup := by
  refine ⟨by decide, by decide, by decide, by decide⟩

/-!
## C7 — zero chunks from empty input

The chunkers do produce the empty sequence on empty or whitespace-only
input, but no `EmptyDocumentError` exists anywhere in the repository:
`app.py` crashes with a `ZeroDivisionError` at the average-chunk-size
logging line and `new_app.py` with an `IndexError` at
`all_embeddings[0]`.
-/

/-- C7: both chunkers return `[]` for empty and for whitespace-only
input, and both `create_document_embeddings` variants then raise an
unrelated error (`ZeroDivisionError` resp. `IndexError`) rather than an
`EmptyDocumentError`. -/
theorem empty_document_unrelated_crash (encode : PyText → List Int) :
    create_document_chunks_app [] = [] ∧
    create_document_chunks_app ("  \n ".toList) = [] ∧
    create_optimized_chunks [] = [] ∧
    create_optimized_chunks ("  \n ".toList) = [] ∧
    create_document_embeddings_app encode ("  \n ".toList) =
      Except.error ("ZeroDivisionError: integer division or modulo by zero".toList) ∧
    create_document_embeddings_new encode ("  \n ".toList) =
      Except.error ("IndexError: list index out of range".toList) := by
  refine ⟨by decide, by decide, by decide, by decide, ?_, ?_⟩
  · have h : create_document_chunks_app ("  \n ".toList) = [] := by decide
    simp [create_document_embeddings_app, h]
    decide
  · have h : create_optimized_chunks ("  \n ".toList) = [] := by decide
    simp [create_document_embeddings_new, h]
    decide

/-!
## C6 — validation order

The code checks, in order: rate limit (429), bearer token (401),
`documents` present (400), `questions` non-empty list (400), and only
*then* the http(s) URL scheme (400).  The claimed order runs the whole
`documents` check (presence and scheme) before `questions`.  Both orders
produce the same status codes, but not the same failing check: a request
with a present non-http `documents` and missing `questions` gets the
questions error from the code and the URL error under the claimed order.
-/

/-- C6 (counterexample): for `documents = "ftp://example.com/doc.pdf"`
and missing `questions` (rate limit and auth passing), the code's
validation result differs from the claimed validation order's result. -/
theorem validation_order_counterexample :
    hackrx_validate [] 0 (some ("token123".toList))
        (some ("Bearer token123".toList))
        (some ("ftp://example.com/doc.pdf".toList)) none ≠
      spec_order_validate [] 0 (some ("token123".toList))
        (some ("Bearer token123".toList))
        (some ("ftp://example.com/doc.pdf".toList)) none := by
  decide

/-- C6 (amended): validation runs rate limit (429) first, then bearer
auth (401), then `documents` presence (400), then `questions` present
and a non-empty list (400), and only then the http(s) URL scheme (400);
a request failing an earlier check receives that check's response even
when later checks would also fail.  Because every body check maps to
400, the resulting *status code* is everywhere the one of the order
claimed by the specification (full documents check before questions). -/
theorem validation_order_amended (times : List ℚ) (now : ℚ)
    (required auth documents : Option PyText)
    (questions : Option (List PyText)) :
    (hackrx_validate times now required auth documents questions).map Prod.fst =
      (spec_order_validate times now required auth documents questions).map Prod.fst ∧
    ((rate_limit_is_allowed 20 60 times now).1 = false →
      hackrx_validate times now required auth documents questions =
        some (429, ("Rate limit exceeded. Please try again later.".toList))) ∧
    (∀ err, (rate_limit_is_allowed 20 60 times now).1 = true →
      verify_bearer_token required auth = some err →
      hackrx_validate times now required auth documents questions =
        some (401, err)) ∧
    ((rate_limit_is_allowed 20 60 times now).1 = true →
      verify_bearer_token required auth = none →
      pyFalsyStr documents = true →
      hackrx_validate times now required auth documents questions =
        some (400, ("Missing \x27documents\x27 parameter. Please provide a URL to the document.".toList))) ∧
    ((rate_limit_is_allowed 20 60 times now).1 = true →
      verify_bearer_token required auth = none →
      pyFalsyStr documents = false → questionsBad questions = true →
      hackrx_validate times now required auth documents questions =
        some (400, ("Questions must be a non-empty list.".toList))) ∧
    ((rate_limit_is_allowed 20 60 times now).1 = true →
      verify_bearer_token required auth = none →
      pyFalsyStr documents = false → questionsBad questions = false →
      startsWithHttp (documents.getD []) = false →
      hackrx_validate times now required auth documents questions =
        some (400, ("Documents parameter must be a valid URL.".toList))) ∧
    ((rate_limit_is_allowed 20 60 times now).1 = true →
      verify_bearer_token required auth = none →
      pyFalsyStr documents = false → questionsBad questions = false →
      startsWithHttp (documents.getD []) = true →
      hackrx_validate times now required auth documents questions = none) := by
  refine ⟨?_, ?_, ?_, ?_, ?_, ?_, ?_⟩
  · unfold hackrx_validate spec_order_validate
    by_cases h1 : (rate_limit_is_allowed 20 60 times now).1 = false
    · simp [h1]
    · cases hv : verify_bearer_token required auth with
      | some err => simp [h1, hv]
      | none =>
        by_cases hd : pyFalsyStr documents = true
        · simp [h1, hv, hd]
        · by_cases hq : questionsBad questions = true
          · by_cases hu : startsWithHttp (documents.getD []) = true <;>
              simp [h1, hv, hd, hq, hu]
          · by_cases hu : startsWithHttp (documents.getD []) = true <;>
              simp [h1, hv, hd, hq, hu]
  · intro h1
    simp [hackrx_validate, h1]
  · intro err h1 hv
    simp [hackrx_validate, h1, hv]
  · intro h1 hv hd
    simp [hackrx_validate, h1, hv, hd]
  · intro h1 hv hd hq
    simp [hackrx_validate, h1, hv, hd, hq]
  · intro h1 hv hd hq hu
    simp [hackrx_validate, h1, hv, hd, hq, hu]
  · intro h1 hv hd hq hu
    simp [hackrx_validate, h1, hv, hd, hq, hu]

/-- C6 (witness): a request passing rate limit and auth but with missing
`documents` and missing `questions` receives the documents-missing 400
response. -/
theorem validation_order_amended_witness :
    hackrx_validate [] 0 (some ("token123".toList))
        (some ("Bearer token123".toList)) none none =
      some (400, ("Missing \x27documents\x27 parameter. Please provide a URL to the document.".toList)) :=
  (validation_order_amended [] 0 (some ("token123".toList))
      (some ("Bearer token123".toList)) none none).2.2.2.1
    (by decide) (by decide) (by decide)

/-!
## C2/C3 — ordered fan-out and per-question failure isolation
-/

/-- Positions written by the gather fold: slot `j` holds `ans j` exactly
when some completed task had index `j` (and `j` is a valid slot),
regardless of completion order. -/
theorem gather_fold_getElem (ans : Nat → PyText) (order : List Nat)
    (acc : List (Option PyText)) (j : Nat) :
    (order.foldl (fun a i => a.set i (some (ans i))) acc)[j]? =
      if j ∈ order ∧ j < acc.length then some (some (ans j)) else acc[j]? := by
  induction order generalizing acc with
  | nil => simp
  | cons o rest ih =>
    simp only [List.foldl_cons]
    rw [ih]
    rcases Nat.lt_or_ge j acc.length with hlt | hge
    · by_cases hjr : j ∈ rest
      · simp [hjr, hlt, List.length_set]
      · by_cases hjo : j = o
        · subst hjo
          simp [hjr, hlt, List.length_set, List.getElem?_set_self',
            List.getElem?_eq_getElem hlt]
        · have hset : (acc.set o (some (ans o)))[j]? = acc[j]? :=
            List.getElem?_set_ne (fun h => hjo h.symm)
          simp [hjr, hjo, hlt, List.length_set, hset, List.mem_cons]
    · have h1 : (acc.set o (some (ans o)))[j]? = none :=
        List.getElem?_eq_none (by simpa [List.length_set] using hge)
      have h2 : acc[j]? = none := List.getElem?_eq_none hge
      simp [List.length_set, Nat.not_lt.mpr hge, h1, h2]

/-- When the completion order is a permutation of the task indices, the
gathered slots are exactly the answers in input order. -/
theorem gather_fill_perm (n : Nat) (ans : Nat → PyText) (order : List Nat)
    (hperm : order.Perm (List.range n)) :
    gather_fill n ans order = (List.range n).map (fun i => some (ans i)) := by
  apply List.ext_getElem?
  intro j
  unfold gather_fill
  rw [gather_fold_getElem]
  by_cases hj : j < n
  · have hmem : j ∈ order := hperm.mem_iff.mpr (List.mem_range.mpr hj)
    simp [hmem, hj, List.getElem?_map, List.getElem?_range hj]
  · have hnotmem : j ∉ order := fun h =>
      hj (List.mem_range.mp (hperm.mem_iff.mp h))
    have hge : (List.range n).length ≤ j := by simpa using Nat.le_of_not_lt hj
    simp [hnotmem, List.getElem?_replicate, hj,
      List.getElem?_eq_none (l := (List.range n).map (fun i => some (ans i)))
        (by simpa using hge)]

/-- C2: for a non-empty question list and any completion order of the
concurrent per-question tasks, `hackrx_answers` returns exactly one
answer per input question, in input order: slot `i` holds the processed
answer of question `i`. -/
theorem hackrx_answers_preserve_input_order
    (parse : PyText → Option PyJson) (pyStr : PyJson → PyText)
    (qs : List PyText) (run : Nat → PyText → QOutcome) (order : List Nat)
    (_hqs : qs ≠ []) (hperm : order.Perm (List.range qs.length)) :
    hackrx_answers parse pyStr qs run order =
      (List.range qs.length).map
        (fun i => process_question parse pyStr (run i (qs.getD i []))) ∧
    (hackrx_answers parse pyStr qs run order).length = qs.length := by
  have h := gather_fill_perm qs.length
    (fun i => process_question parse pyStr (run i (qs.getD i []))) order hperm
  constructor
  · unfold hackrx_answers
    rw [h, List.map_map]
    rfl
  · unfold hackrx_answers
    rw [h]
    simp

/-- C2 (witness): three questions completed in order 2, 0, 1 still yield
the answers in input order. -/
theorem hackrx_answers_preserve_input_order_witness :
    hackrx_answers (fun _ => none) (fun _ => [])
        [("q1".toList), ("q2".toList), ("q3".toList)]
        (fun _ q => QOutcome.ok q) [2, 0, 1] =
      [("q1".toList), ("q2".toList), ("q3".toList)] := by
  rw [(hackrx_answers_preserve_input_order (fun _ => none) (fun _ => [])
      [("q1".toList), ("q2".toList), ("q3".toList)]
      (fun _ q => QOutcome.ok q) [2, 0, 1] (by decide) (by decide)).1]
  decide

/-- C3: once the document is resolved, the response status is 200 with
one answer per question; a question whose body raises an exception gets
the error-string answer `"Error processing question: <msg>"` at its own
position, and every position `j` holds exactly the processed answer of
its own question — a per-question failure never disturbs its siblings
and never aborts the request. -/
theorem per_question_failure_isolated
    (parse : PyText → Option PyJson) (pyStr : PyJson → PyText)
    (qs : List PyText) (run : Nat → PyText → QOutcome) (order : List Nat)
    (hperm : order.Perm (List.range qs.length)) (i : Nat)
    (hi : i < qs.length) (e : PyText)
    (hexc : run i (qs.getD i []) = QOutcome.exc e) :
    (hackrx_response parse pyStr qs run order).1 = 200 ∧
    (hackrx_response parse pyStr qs run order).2.length = qs.length ∧
    (hackrx_response parse pyStr qs run order).2[i]? =
      some (("Error processing question: ".toList) ++ e) ∧
    (∀ j, j < qs.length →
      (hackrx_response parse pyStr qs run order).2[j]? =
        some (process_question parse pyStr (run j (qs.getD j [])))) := by
  have h := gather_fill_perm qs.length
    (fun i => process_question parse pyStr (run i (qs.getD i []))) order hperm
  have hall : ∀ j, j < qs.length →
      (hackrx_response parse pyStr qs run order).2[j]? =
        some (process_question parse pyStr (run j (qs.getD j []))) := by
    intro j hj
    show (hackrx_answers parse pyStr qs run order)[j]? = _
    unfold hackrx_answers
    rw [h, List.map_map, List.getElem?_map, List.getElem?_range hj]
    rfl
  refine ⟨rfl, ?_, ?_, hall⟩
  · show (hackrx_answers parse pyStr qs run order).length = qs.length
    unfold hackrx_answers
    rw [h]
    simp
  · rw [hall i hi, hexc]
    rfl

/-- C3 (witness): of two questions, the first raises and gets the error
string at position 0 while the second is answered normally; the response
is 200 with both answers. -/
theorem per_question_failure_isolated_witness :
    (hackrx_response (fun _ => none) (fun _ => [])
        [("qa".toList), ("qb".toList)]
        (fun i _ => if i = 0 then QOutcome.exc ("boom".toList)
          else QOutcome.ok ("fine".toList)) [1, 0]).1 = 200 ∧
    (hackrx_response (fun _ => none) (fun _ => [])
        [("qa".toList), ("qb".toList)]
        (fun i _ => if i = 0 then QOutcome.exc ("boom".toList)
          else QOutcome.ok ("fine".toList)) [1, 0]).2.length = 2 ∧
    (hackrx_response (fun _ => none) (fun _ => [])
        [("qa".toList), ("qb".toList)]
        (fun i _ => if i = 0 then QOutcome.exc ("boom".toList)
          else QOutcome.ok ("fine".toList)) [1, 0]).2[0]? =
      some (("Error processing question: ".toList) ++ ("boom".toList)) ∧
    (∀ j, j < ([("qa".toList), ("qb".toList)] : List PyText).length →
      (hackrx_response (fun _ => none) (fun _ => [])
          [("qa".toList), ("qb".toList)]
          (fun i _ => if i = 0 then QOutcome.exc ("boom".toList)
            else QOutcome.ok ("fine".toList)) [1, 0]).2[j]? =
        some (process_question (fun _ => none) (fun _ => [])
          ((fun i _ => if i = 0 then QOutcome.exc ("boom".toList)
            else QOutcome.ok ("fine".toList)) j
            (([("qa".toList), ("qb".toList)] : List PyText).getD j [])))) :=
  per_question_failure_isolated (fun _ => none) (fun _ => [])
    [("qa".toList), ("qb".toList)]
    (fun i _ => if i = 0 then QOutcome.exc ("boom".toList)
      else QOutcome.ok ("fine".toList)) [1, 0] (by decide) 0 (by decide)
    ("boom".toList) rfl

/-!
## C5 — cache key determinism and at most one build
-/

/-- C5: the cache key is a pure function of the URL, so resolving twice
with an unchanged source looks up the same key.  On a hit the stored
document is returned with zero builds and the extract/chunk/index
pipeline is not invoked; after a miss (one build), a second resolve
within the TTL finds the entry in the cache and returns the stored
document with zero builds — at most one build for the two resolves. -/
theorem document_cache_single_build {α : Type} (build : PyText → α)
    (st : List (CachedDoc α)) (url : PyText) (t1 t2 : ℚ)
    (_h12 : t1 ≤ t2) (hTTL : t2 - t1 ≤ 3600) :
    (∀ d, lookup_cache (get_document_cache_key url)
        (cleanup_expired_cache t1 st) = some d →
      resolve_document build t1 st url =
        (d, cleanup_expired_cache t1 st, 0)) ∧
    (lookup_cache (get_document_cache_key url)
        (cleanup_expired_cache t1 st) = none →
      (resolve_document build t1 st url).2.2 = 1 ∧
      (resolve_document build t1 st url).1 = build url ∧
      resolve_document build t2 (resolve_document build t1 st url).2.1 url =
        (build url,
          cleanup_expired_cache t2 (resolve_document build t1 st url).2.1,
          0)) := by
  constructor
  · intro d hd
    simp [resolve_document, hd]
  · intro hmiss
    have hr1 : resolve_document build t1 st url =
        (build url,
          cache_document t1 (get_document_cache_key url) (build url)
            (cleanup_expired_cache t1 st), 1) := by
      simp [resolve_document, hmiss]
    refine ⟨by rw [hr1], by rw [hr1], ?_⟩
    rw [hr1]
    set s1 := cleanup_expired_cache t1 st with hs1
    have hlook : lookup_cache (get_document_cache_key url)
        (cleanup_expired_cache t2
          (cache_document t1 (get_document_cache_key url) (build url)
            s1)) = some (build url) := by
      have hfind : List.find?
          (fun e => e.key = get_document_cache_key url)
          s1 = none := by
        unfold lookup_cache at hmiss
        exact Option.map_eq_none'.mp hmiss
      have hall := List.find?_eq_none.mp hfind
      unfold cache_document cleanup_expired_cache lookup_cache
      rw [List.filter_append, List.find?_append]
      have hnone : List.find?
          (fun e => e.key = get_document_cache_key url)
          (List.filter (fun e => ¬ (3600 < t2 - e.timestamp))
            (if 10 ≤ s1.length then
              remove_oldest s1
            else s1)) = none := by
        apply List.find?_eq_none.mpr
        intro e he
        have he1 : e ∈ (if 10 ≤ s1.length then
            remove_oldest s1
          else s1) := List.mem_of_mem_filter he
        have he2 : e ∈ s1 := by
          revert he1
          split
          · intro he1
            unfold remove_oldest at he1
            revert he1
            split
            · exact fun he1 => he1
            · exact fun he1 => (List.eraseP_sublist _).mem he1
          · exact fun he1 => he1
        exact hall e he2
      rw [hnone, Option.none_or]
      have hkeep : t2 ≤ 3600 + t1 := by linarith
      simp [List.filter, List.find?, hkeep]
    simp [resolve_document, hlook]

/-- C5 (witness): from an empty cache, resolving `http://example.com/a.pdf`
at time 0 builds once, and resolving again at time 1 returns the stored
document with zero builds. -/
theorem document_cache_single_build_witness :
    (resolve_document (fun _ => (0 : Nat)) 0 []
        ("http://example.com/a.pdf".toList)).2.2 = 1 ∧
    (resolve_document (fun _ => (0 : Nat)) 0 []
        ("http://example.com/a.pdf".toList)).1 = 0 ∧
    resolve_document (fun _ => (0 : Nat)) 1
        (resolve_document (fun _ => (0 : Nat)) 0 []
          ("http://example.com/a.pdf".toList)).2.1
        ("http://example.com/a.pdf".toList) =
      (0, cleanup_expired_cache 1
          (resolve_document (fun _ => (0 : Nat)) 0 []
            ("http://example.com/a.pdf".toList)).2.1, 0) :=
  (document_cache_single_build (fun _ => (0 : Nat)) []
      ("http://example.com/a.pdf".toList) 0 1 (by norm_num) (by norm_num)).2
    rfl

/-!
## C4 — code-fence stripping and parse recovery
-/

/-- `findSub` returns 0 when the pattern is a prefix. -/
theorem findSub_of_isPrefixOf (l pat : PyText) (h : pat.isPrefixOf l = true) :
    findSub l pat = some 0 := by
  cases l with
  | nil =>
    have : pat = [] := by
      have := List.isPrefixOf_iff_prefix.mp h
      simpa using List.prefix_nil.mp this
    simp [findSub, this]
  | cons c rest => simp [findSub, h]

/-- If a pattern does not occur, no extension of it occurs. -/
theorem findSub_none_mono (l p q : PyText) (hpq : p.isPrefixOf q = true)
    (h : findSub l p = none) : findSub l q = none := by
  induction l with
  | nil =>
    simp only [findSub] at h ⊢
    split at h
    · exact absurd h (by simp)
    · split
      · rename_i hq
        have : p <+: q := List.isPrefixOf_iff_prefix.mp hpq
        rename_i hp
        exact absurd (List.prefix_nil.mp (by simpa [hq] using this)) hp
      · rfl
  | cons c rest ih =>
    simp only [findSub] at h ⊢
    split at h
    · exact absurd h (by simp)
    · have hrest : findSub rest p = none := by
        cases hfr : findSub rest p with
        | none => rfl
        | some v => simp [hfr] at h
      split
      · rename_i hq
        have hpl : p.isPrefixOf (c :: rest) = true :=
          List.isPrefixOf_iff_prefix.mpr
            ((List.isPrefixOf_iff_prefix.mp hpq).trans
              (List.isPrefixOf_iff_prefix.mp hq))
        rename_i hp
        exact absurd hpl hp
      · rw [ih hrest]
        rfl

/-- Index of a pattern appended after text free of the pattern's head
character. -/
theorem findSub_append_self (x p : PyText) (c : Char) (hc : p.head? = some c)
    (hx : c ∉ x) : findSub (x ++ p) p = some x.length := by
  induction x with
  | nil =>
    simp only [List.nil_append]
    exact findSub_of_isPrefixOf p p
      (List.isPrefixOf_iff_prefix.mpr (List.prefix_refl p))
  | cons a x' ih =>
    have hca : c ≠ a := fun h => hx (h ▸ List.mem_cons_self a x')
    have hx' : c ∉ x' := fun h => hx (List.mem_cons_of_mem a h)
    have hnp : p.isPrefixOf (a :: (x' ++ p)) = false := by
      cases hb : p.isPrefixOf (a :: (x' ++ p)) with
      | false => rfl
      | true =>
        have hpre := List.isPrefixOf_iff_prefix.mp hb
        cases p with
        | nil => simp at hc
        | cons d p' =>
          have hd : d = c := by injection hc
          have hda : d = a := (List.cons_prefix_cons.mp hpre).1
          rw [hd] at hda
          exact absurd hda hca
    simp only [List.cons_append]
    rw [show findSub (a :: (x' ++ p)) p =
        if p.isPrefixOf (a :: (x' ++ p)) then some 0
        else (findSub (x' ++ p) p).map (· + 1) from rfl, hnp]
    simp [ih hx']

/-- C4: the answer generator's JSON normalization.  For any external
`json.loads`/`json.dumps`: (i) on text with no code fence, the text is
parsed as is, and a parse failure yields the single-field
`{"justification": <text>}` wrapper; (ii) a ```` ```json ```` fenced
body is stripped to the stripped body before parsing, a parse failure
again yielding the single-field wrapper of the stripped body.  The
normalization is total — malformed LLM output never raises. -/
theorem llm_output_parse_recovery (parse : PyText → Option PyJson)
    (dumps : PyJson → PyText) :
    (∀ t, containsSub t ("```".toList) = false →
      strip_code_fences t = t ∧
      (parse t = none → generate_response_parse parse dumps t =
        dumps (PyJson.obj [(("justification".toList), PyJson.str t)])) ∧
      (∀ j, parse t = some j →
        generate_response_parse parse dumps t = dumps j)) ∧
    (∀ body, body ≠ [] → Char.ofNat 96 ∉ body →
      strip_code_fences (("```json".toList) ++ body ++ ("```".toList)) =
        pyStrip body ∧
      (parse (pyStrip body) = none →
        generate_response_parse parse dumps
            (("```json".toList) ++ body ++ ("```".toList)) =
          dumps (PyJson.obj
            [(("justification".toList), PyJson.str (pyStrip body))]))) := by
  constructor
  · intro t hno
    have hf3 : findSub t ("```".toList) = none :=
      Option.not_isSome_iff_eq_none.mp (by simpa [containsSub] using hno)
    have hjf : findSub t ("```json".toList) = none :=
      findSub_none_mono t ("```".toList) ("```json".toList) (by decide) hf3
    have hstrip : strip_code_fences t = t := by
      unfold strip_code_fences
      rw [hjf, hf3]
    refine ⟨hstrip, ?_, ?_⟩
    · intro hp
      simp [generate_response_parse, hstrip, hp]
    · intro j hp
      simp [generate_response_parse, hstrip, hp]
  · intro body hne hbt
    have hjf : findSub (("```json".toList) ++ body ++ ("```".toList))
        ("```json".toList) = some 0 :=
      findSub_of_isPrefixOf _ _
        (List.isPrefixOf_iff_prefix.mpr ⟨body ++ ("```".toList), by simp⟩)
    have hdrop : (("```json".toList) ++ body ++ ("```".toList)).drop 7 =
        body ++ ("```".toList) := by
      have : (("```json".toList) ++ (body ++ ("```".toList))).drop
          (("```json".toList).length) = body ++ ("```".toList) :=
        List.drop_left _ _
      simp only [List.append_assoc] at this ⊢
      exact this
    have hf3 : findSub (body ++ ("```".toList)) ("```".toList) =
        some body.length :=
      findSub_append_self body ("```".toList) (Char.ofNat 96) rfl hbt
    have hslice : pySlice (("```json".toList) ++ body ++ ("```".toList)) 7
        (7 + body.length) = body := by
      unfold pySlice
      rw [hdrop]
      have htl := List.take_left body ("```".toList)
      simp only [Nat.add_sub_cancel_left] at htl ⊢
      exact htl
    have hpos : 0 < body.length := List.length_pos.mpr hne
    have hstrip : strip_code_fences
        (("```json".toList) ++ body ++ ("```".toList)) = pyStrip body := by
      unfold strip_code_fences
      rw [hjf]
      simp only [Nat.zero_add]
      rw [hdrop, hf3]
      show (if 0 < body.length then
          pyStrip (pySlice (("```json".toList) ++ body ++ ("```".toList)) 7
            (7 + body.length))
        else (("```json".toList) ++ body ++ ("```".toList))) = pyStrip body
      rw [if_pos hpos, hslice]
    refine ⟨hstrip, ?_⟩
    intro hp
    unfold generate_response_parse
    rw [hstrip]
    simp [hp]

/-- C4 (witness): the fenced body `" hello "` is stripped to `"hello"`,
and with a parser rejecting it the result is the single-field wrapper. -/
theorem llm_output_parse_recovery_witness :
    strip_code_fences (("```json".toList) ++ (" hello ".toList) ++
        ("```".toList)) = pyStrip (" hello ".toList) ∧
    generate_response_parse (fun _ => none) (fun _ => ("out".toList))
        (("```json".toList) ++ (" hello ".toList) ++ ("```".toList)) =
      (fun _ => ("out".toList)) (PyJson.obj
        [(("justification".toList),
          PyJson.str (pyStrip (" hello ".toList)))]) :=
  ⟨((llm_output_parse_recovery (fun _ => none)
      (fun _ => ("out".toList))).2 (" hello ".toList) (by decide)
      (by decide)).1,
    ((llm_output_parse_recovery (fun _ => none)
      (fun _ => ("out".toList))).2 (" hello ".toList) (by decide)
      (by decide)).2 rfl⟩

/-!
## C8 — token-budget fallback
-/

/-- Floors at least 8001 exceed the 8000 budget after `toNat`. -/
theorem floor_toNat_big (x : ℚ) (h : (8001 : ℚ) ≤ x) :
    8000 < (Int.floor x).toNat := by
  have hf : (8001 : ℤ) ≤ Int.floor x := Int.le_floor.mpr (by exact_mod_cast h)
  omega

/-- Any text of at least 30404 characters estimates above the 8000-token
budget under `new_app.py`'s estimator. -/
theorem estimate_tokens_new_lower (t : PyText) (h : 30404 ≤ t.length) :
    8000 < estimate_tokens_new t := by
  unfold estimate_tokens_new
  apply floor_toNat_big
  have h1 : (30404 : ℚ) ≤ (t.length : ℚ) := by exact_mod_cast h
  have h2 : (0 : ℚ) ≤ (pyWordCount t : ℚ) := by positivity
  nlinarith

/-- Any text of at least 32004 characters estimates above the 8000-token
budget under `app.py`'s estimator. -/
theorem estimate_tokens_app_lower (t : PyText) (h : 32004 ≤ t.length) :
    8000 < estimate_tokens_app t := by
  simp only [estimate_tokens_app]
  apply floor_toNat_big
  have h1 : (32004 : ℚ) ≤ (t.length : ℚ) := by exact_mod_cast h
  have h2 : (0 : ℚ) ≤ ((t.filter isPunctApp).length : ℚ) := by positivity
  have h3 : (0 : ℚ) ≤ (((pyWords t).filter pyIsDigit).length : ℚ) := by
    positivity
  have hb : (t.length : ℚ) / 4 ≤
      (if 0 < (pyWordCount t : ℚ) ∧ 6 < (t.length : ℚ) / (pyWordCount t : ℚ)
        then (t.length : ℚ) / 4 * (6 / 5) else (t.length : ℚ) / 4) := by
    split
    · nlinarith
    · exact le_refl _
  nlinarith [hb]

/-- The first entry of the numbered context is `"1. " ++ c0`, so the
context is at least 3 characters longer than the first chunk. -/
theorem numberedContext_head_le (c0 : PyText) (rest : List PyText) :
    c0.length + 3 ≤ (numberedContext (c0 :: rest)).length := by
  unfold numberedContext
  rw [List.enum_cons]
  simp only [List.map_cons]
  have hhead : (natRepr (0 + 1) ++ ('.' :: [' ']) ++ c0).length =
      c0.length + 3 := by
    have h1 : natRepr (0 + 1) = ['1'] := by decide
    rw [h1]
    simp [List.length_append]
  calc c0.length + 3 = (natRepr (0 + 1) ++ ('.' :: [' ']) ++ c0).length :=
        hhead.symm
    _ ≤ _ := by
        cases hrest : (List.enumFrom 1 rest).map
            (fun p => natRepr (p.1 + 1) ++ ('.' :: [' ']) ++ p.2) with
        | nil => simp [List.intercalate]
        | cons y ys =>
          rw [List.intercalate]
          simp [List.intersperse]

set_option maxRecDepth 20000

/-- The fallback prompt is strictly shorter than the `app.py` full
prompt, for every question and retrieved-chunk list. -/
theorem short_lt_full_app (q c0 : PyText) (rest : List PyText) :
    (short_prompt q c0).length < (full_prompt_app q (c0 :: rest)).length := by
  have hctx := numberedContext_head_le c0 rest
  have hmin : (300 : Nat) ⊓ c0.length ≤ c0.length := min_le_right _ _
  have hS : shortPromptPre.length + shortPromptMid.length +
      shortPromptPost.length = 266 := by decide
  have hA : promptAppPre.length + promptAppMid.length +
      promptAppPost.length = 792 := by decide
  simp only [short_prompt, full_prompt_app, List.length_append,
    List.length_take]
  omega

/-- The fallback prompt is strictly shorter than the `new_app.py` full
prompt, for every question and retrieved-chunk list. -/
theorem short_lt_full_new (q c0 : PyText) (rest : List PyText) :
    (short_prompt q c0).length < (full_prompt_new q (c0 :: rest)).length := by
  have hctx := numberedContext_head_le c0 rest
  have hmin : (300 : Nat) ⊓ c0.length ≤ c0.length := min_le_right _ _
  have hS : shortPromptPre.length + shortPromptMid.length +
      shortPromptPost.length = 266 := by decide
  have hN : promptNewPre.length + promptNewMid.length +
      promptNewPost.length = 1309 := by decide
  simp only [short_prompt, full_prompt_new, List.length_append,
    List.length_take]
  omega

/-- C8: in both variants, when the estimated token count of the full
prompt exceeds the fixed 8000 budget, `generate_response` sends the
fallback prompt built from the single most relevant chunk (truncated to
300 characters), and that fallback is strictly shorter than the full
prompt; when the budget is not exceeded the full prompt is sent
unchanged — the fallback is a single deterministic degradation, never
iterated. -/
theorem prompt_token_budget_fallback (query c0 : PyText)
    (rest : List PyText) :
    (8000 < estimate_tokens_app (full_prompt_app query (c0 :: rest)) →
      generate_prompt_app query (c0 :: rest) = some (short_prompt query c0) ∧
      (short_prompt query c0).length <
        (full_prompt_app query (c0 :: rest)).length) ∧
    (¬ 8000 < estimate_tokens_app (full_prompt_app query (c0 :: rest)) →
      generate_prompt_app query (c0 :: rest) =
        some (full_prompt_app query (c0 :: rest))) ∧
    (8000 < estimate_tokens_new (full_prompt_new query (c0 :: rest)) →
      generate_prompt_new query (c0 :: rest) = some (short_prompt query c0) ∧
      (short_prompt query c0).length <
        (full_prompt_new query (c0 :: rest)).length) ∧
    (¬ 8000 < estimate_tokens_new (full_prompt_new query (c0 :: rest)) →
      generate_prompt_new query (c0 :: rest) =
        some (full_prompt_new query (c0 :: rest))) := by
  refine ⟨?_, ?_, ?_, ?_⟩
  · intro htrig
    refine ⟨?_, short_lt_full_app query c0 rest⟩
    simp [generate_prompt_app, htrig]
  · intro htrig
    simp [generate_prompt_app, htrig]
  · intro htrig
    refine ⟨?_, short_lt_full_new query c0 rest⟩
    simp [generate_prompt_new, htrig]
  · intro htrig
    simp [generate_prompt_new, htrig]

/-- C8 (witness): a 40000-character question pushes both full prompts
over the 8000-token budget, and both variants fall back to the short
single-chunk prompt. -/
theorem prompt_token_budget_fallback_witness :
    8000 < estimate_tokens_app
      (full_prompt_app (List.replicate 40000 'a')
        [("policy chunk".toList)]) ∧
    generate_prompt_app (List.replicate 40000 'a')
        [("policy chunk".toList)] =
      some (short_prompt (List.replicate 40000 'a')
        ("policy chunk".toList)) ∧
    8000 < estimate_tokens_new
      (full_prompt_new (List.replicate 40000 'a')
        [("policy chunk".toList)]) ∧
    generate_prompt_new (List.replicate 40000 'a')
        [("policy chunk".toList)] =
      some (short_prompt (List.replicate 40000 'a')
        ("policy chunk".toList)) := by
  have hlenA : 32004 ≤ (full_prompt_app (List.replicate 40000 'a')
      [("policy chunk".toList)]).length := by
    simp only [full_prompt_app, List.length_append, List.length_replicate]
    omega
  have hlenN : 30404 ≤ (full_prompt_new (List.replicate 40000 'a')
      [("policy chunk".toList)]).length := by
    simp only [full_prompt_new, List.length_append, List.length_replicate]
    omega
  have htrigA := estimate_tokens_app_lower _ hlenA
  have htrigN := estimate_tokens_new_lower _ hlenN
  exact ⟨htrigA,
    ((prompt_token_budget_fallback (List.replicate 40000 'a')
        ("policy chunk".toList) []).1 htrigA).1,
    htrigN,
    ((prompt_token_budget_fallback (List.replicate 40000 'a')
        ("policy chunk".toList) []).2.2.1 htrigN).1⟩

/-!
## C9 — chunk length floors and unsplittable sentences
-/

/-- Every chunk emitted by `new_app.py`'s sentence-packing loop has
length at least 80 (every append site is guarded). -/
theorem mem_packSentencesNew_length (ss : List PyText) (cur c : PyText)
    (hc : c ∈ packSentencesNew ss cur) : 80 ≤ c.length := by
  induction ss generalizing cur with
  | nil =>
    unfold packSentencesNew at hc
    split at hc
    · rename_i hg
      rw [List.mem_singleton.mp hc]
      exact hg.2
    · simp at hc
  | cons s rest ih =>
    rw [packSentencesNew] at hc
    by_cases h1 : pyStrip s = []
    · rw [if_pos h1] at hc
      exact ih _ hc
    · rw [if_neg h1] at hc
      by_cases h2 : (cur ++ (if cur ≠ [] then [' '] else []) ++
          pyStrip s).length ≤ 500
      · rw [if_pos h2] at hc
        exact ih _ hc
      · rw [if_neg h2] at hc
        rcases List.mem_append.mp hc with hfst | hsnd
        · by_cases h3 : cur ≠ [] ∧ 80 ≤ cur.length
          · rw [if_pos h3] at hfst
            rw [List.mem_singleton.mp hfst]
            exact h3.2
          · rw [if_neg h3] at hfst
            simp at hfst
        · exact ih _ hsnd

/-- Every chunk of `create_optimized_chunks` has length at least 80. -/
theorem create_optimized_chunks_min_length (t : PyText) (c : PyText)
    (hc : c ∈ create_optimized_chunks t) : 80 ≤ c.length := by
  unfold create_optimized_chunks at hc
  rcases List.mem_flatMap.mp hc with ⟨p, _hp, hcp⟩
  unfold chunkParagraphNew at hcp
  split at hcp
  · split at hcp
    · rename_i hg
      rw [List.mem_singleton.mp hcp]
      exact hg
    · simp at hcp
  · exact mem_packSentencesNew_length _ _ _ hcp

/-- A pattern absent from a list is absent from its tail. -/
theorem containsSub_tail (c : Char) (rest pat : PyText)
    (h : containsSub (c :: rest) pat = false) :
    containsSub rest pat = false := by
  unfold containsSub at h ⊢
  rw [findSub] at h
  split at h
  · simp at h
  · cases hfr : findSub rest pat with
    | none => simp [hfr]
    | some v =>
      rw [hfr] at h
      simp at h

/-- A pattern absent from a list is not its prefix. -/
theorem not_isPrefixOf_of_not_containsSub (l pat : PyText)
    (h : containsSub l pat = false) : pat.isPrefixOf l = false := by
  cases l with
  | nil =>
    cases pat with
    | nil => simp [containsSub, findSub] at h
    | cons d p' => simp [List.isPrefixOf]
  | cons c rest =>
    unfold containsSub findSub at h
    cases hp : pat.isPrefixOf (c :: rest) with
    | false => rfl
    | true => simp [hp] at h

/-- `split("\n\n")` on text with no `"\n\n"` yields a single piece. -/
theorem splitParasGo_no_sep (l cur : PyText)
    (h : containsSub l ('\n' :: ['\n']) = false) :
    splitParasGo l cur = [cur.reverse ++ l] := by
  induction l generalizing cur with
  | nil => simp [splitParasGo]
  | cons c1 rest ih =>
    cases rest with
    | nil => simp [splitParasGo]
    | cons c2 rest2 =>
      have hnp := not_isPrefixOf_of_not_containsSub _ _ h
      have hcond : ¬ (c1 = '\n' ∧ c2 = '\n') := by
        intro ⟨h1, h2⟩
        subst h1; subst h2
        simp [List.isPrefixOf] at hnp
      rw [splitParasGo, if_neg hcond, ih _ (containsSub_tail _ _ _ h)]
      simp

/-- `split(". ")` on text with no `". "` yields a single piece. -/
theorem splitDotGo_no_sep (l cur : PyText)
    (h : containsSub l ('.' :: [' ']) = false) :
    splitDotGo l cur = [cur.reverse ++ l] := by
  induction l generalizing cur with
  | nil => simp [splitDotGo]
  | cons c1 rest ih =>
    cases rest with
    | nil => simp [splitDotGo]
    | cons c2 rest2 =>
      have hnp := not_isPrefixOf_of_not_containsSub _ _ h
      have hcond : ¬ (c1 = '.' ∧ c2 = ' ') := by
        intro ⟨h1, h2⟩
        subst h1; subst h2
        simp [List.isPrefixOf] at hnp
      rw [splitDotGo, if_neg hcond, ih _ (containsSub_tail _ _ _ h)]
      simp

/-- The sentence splitter emits boundary-free text as a single piece. -/
theorem sentSplitGo_no_boundary (l cur : PyText) (prev : Char)
    (h : noSentBoundary l prev = true) :
    sentSplitGo l cur prev false = [cur.reverse ++ l] := by
  induction l generalizing cur prev with
  | nil => simp [sentSplitGo]
  | cons c rest ih =>
    unfold noSentBoundary at h
    split at h
    · exact absurd h (by simp)
    · rename_i hcond
      rw [sentSplitGo, if_neg hcond, ih _ _ h]
      simp

/-- A string equal to its own strip neither starts nor ends with
whitespace: the two `dropWhile` passes are the identity on it. -/
theorem pyStrip_eq_self_parts (p : PyText) (h : pyStrip p = p) :
    p.dropWhile isPyWs = p ∧ p.reverse.dropWhile isPyWs = p.reverse := by
  have hlen1 : (p.dropWhile isPyWs).length ≤ p.length :=
    (List.dropWhile_sublist _).length_le
  have hlen2 : (pyStrip p).length ≤ (p.dropWhile isPyWs).length := by
    unfold pyStrip
    calc (((p.dropWhile isPyWs).reverse.dropWhile isPyWs).reverse).length
        = ((p.dropWhile isPyWs).reverse.dropWhile isPyWs).length := by
          rw [List.length_reverse]
      _ ≤ (p.dropWhile isPyWs).reverse.length :=
          (List.dropWhile_sublist _).length_le
      _ = (p.dropWhile isPyWs).length := by rw [List.length_reverse]
  have heq : (p.dropWhile isPyWs).length = p.length := by
    have := congrArg List.length h
    omega
  have hdrop : p.dropWhile isPyWs = p :=
    (List.dropWhile_sublist _).eq_of_length heq
  refine ⟨hdrop, ?_⟩
  have h2 : ((p.reverse.dropWhile isPyWs).reverse) = p := by
    unfold pyStrip at h
    rwa [hdrop] at h
  calc p.reverse.dropWhile isPyWs
      = ((p.reverse.dropWhile isPyWs).reverse).reverse := by
        rw [List.reverse_reverse]
    _ = p.reverse := by rw [h2]

/-- A non-empty string equal to its own strip starts with a
non-whitespace character. -/
theorem pyStrip_eq_self_head (p : PyText) (c : Char) (rest : PyText)
    (hp : p = c :: rest) (h : pyStrip p = p) : isPyWs c = false := by
  have hdrop := (pyStrip_eq_self_parts p h).1
  subst hp
  cases hws : isPyWs c with
  | false => rfl
  | true =>
    rw [List.dropWhile_cons_of_pos hws] at hdrop
    have : (rest.dropWhile isPyWs).length ≤ rest.length :=
      (List.dropWhile_sublist _).length_le
    have := congrArg List.length hdrop
    simp at this
    omega

/-- Stripping a stripped sentence with `". "` re-appended yields the
sentence plus a period. -/
theorem pyStrip_append_dot_space (c : Char) (r : PyText)
    (hws : isPyWs c = false) :
    pyStrip ((c :: r) ++ ('.' :: [' '])) = (c :: r) ++ ['.'] := by
  unfold pyStrip
  rw [List.cons_append, List.dropWhile_cons_of_neg (by simp [hws])]
  have hrev : (c :: (r ++ ('.' :: [' ']))).reverse =
      ' ' :: '.' :: (r.reverse ++ [c]) := by
    simp
  rw [hrev, List.dropWhile_cons_of_pos (by decide),
    List.dropWhile_cons_of_neg (by decide)]
  simp

/-- C9: (i) every chunk of the `app.py` chunker is at least 100
characters and every chunk of `new_app.py`'s `create_optimized_chunks`
at least 80; (ii) a single stripped sentence longer than the size bound
— one with no paragraph separator and no sentence boundary — is emitted
as one whole chunk: unchanged by `create_optimized_chunks`, and with
only a period appended (an artifact of the `". "` re-join) by the
`app.py` chunker; it is never truncated. -/
theorem chunker_floor_and_whole_sentence :
    (∀ t c, c ∈ create_document_chunks_app t → 100 ≤ c.length) ∧
    (∀ t c, c ∈ create_optimized_chunks t → 80 ≤ c.length) ∧
    (∀ p, containsSub p ('\n' :: ['\n']) = false → pyStrip p = p →
      noSentBoundary p (Char.ofNat 0) = true → 500 < p.length →
      create_optimized_chunks p = [p]) ∧
    (∀ p, containsSub p ('\n' :: ['\n']) = false → pyStrip p = p →
      containsSub p ('.' :: [' ']) = false → 600 < p.length →
      create_document_chunks_app p = [p ++ ['.']]) := by
  refine ⟨?_, ?_, ?_, ?_⟩
  · intro t c hc
    unfold create_document_chunks_app at hc
    have := List.of_mem_filter hc
    simpa using this
  · exact create_optimized_chunks_min_length
  · intro p hnn hstrip hnb hlen
    have hne : p ≠ [] := by
      intro h
      rw [h] at hlen
      simp at hlen
    have hparas : splitParas p = [p] := by
      unfold splitParas
      rw [splitParasGo_no_sep _ _ hnn]
      simp
    have hlist : (((splitParas p).map pyStrip).filter (· ≠ [])) = [p] := by
      rw [hparas]
      simp [hstrip, hne]
    unfold create_optimized_chunks
    rw [hlist]
    simp only [List.flatMap_cons, List.flatMap_nil, List.append_nil]
    unfold chunkParagraphNew
    rw [if_neg (by omega)]
    have hsent : sentSplit p = [p] := by
      unfold sentSplit
      rw [sentSplitGo_no_boundary _ _ _ hnb]
      simp
    rw [hsent, packSentencesNew]
    rw [if_neg (by rw [hstrip]; exact hne)]
    rw [if_neg (by
      rw [hstrip]
      simp only [ne_eq, not_true_eq_false, if_neg (by simp : ¬ (([] : PyText) ≠ []))]
      simp
      omega)]
    rw [if_neg (by simp)]
    rw [List.nil_append, packSentencesNew]
    rw [if_pos ⟨by rw [hstrip]; exact hne, by rw [hstrip]; omega⟩]
    rw [hstrip]
  · intro p hnn hstrip hdot hlen
    have hne : p ≠ [] := by
      intro h
      rw [h] at hlen
      simp at hlen
    obtain ⟨c, r, hp⟩ : ∃ c r, p = c :: r := by
      cases p with
      | nil => exact absurd rfl hne
      | cons c r => exact ⟨c, r, rfl⟩
    have hws : isPyWs c = false := pyStrip_eq_self_head p c r hp hstrip
    have hparas : splitParas p = [p] := by
      unfold splitParas
      rw [splitParasGo_no_sep _ _ hnn]
      simp
    have hlist : (((splitParas p).map pyStrip).filter (· ≠ [])) = [p] := by
      rw [hparas]
      simp [hstrip, hne]
    unfold create_document_chunks_app
    rw [hlist]
    simp only [List.flatMap_cons, List.flatMap_nil, List.append_nil]
    unfold chunkParagraphApp
    rw [if_neg (by omega)]
    have hsplit : splitDot p = [p] := by
      unfold splitDot
      rw [splitDotGo_no_sep _ _ hdot]
      simp
    rw [hsplit, packSentencesApp]
    rw [if_neg (by
      simp only [List.nil_append, List.length_append]
      simp
      omega)]
    have hstrip2 : pyStrip (p ++ ('.' :: [' '])) = p ++ ['.'] := by
      rw [hp]
      exact pyStrip_append_dot_space c r hws
    rw [show pyStrip ([] : PyText) = [] from rfl]
    rw [if_neg (by simp)]
    rw [packSentencesApp, hstrip2]
    rw [if_pos (by simp : ¬ (p ++ ['.'] : PyText) = [])]
    have h100 : 100 ≤ (p ++ ['.']).length := by
      simp
      omega
    simp [List.filter_cons, h100]
    omega

/-- C9 (witness): a single 501-character sentence exceeds the 500 bound
of `create_optimized_chunks` and is emitted whole as one chunk. -/
theorem chunker_floor_and_whole_sentence_witness :
    500 < (List.replicate 501 'a').length ∧
    create_optimized_chunks (List.replicate 501 'a') =
      [List.replicate 501 'a'] :=
  ⟨by decide,
    chunker_floor_and_whole_sentence.2.2.1 (List.replicate 501 'a')
      (by decide) (by decide) (by decide) (by decide)⟩

/-!
## C10 — cleanup idempotence

Helper lemmas about whitespace runs, the `\n\s*\n` collapse and the
space collapse, leading to: the whitespace-normalization stage is
idempotent, while the artifact substitutions can re-trigger and break
idempotence of the full cleanup.
-/

/-- `takeWhile` runs through a fully satisfying prefix. -/
theorem takeWhile_append_all {p : Char → Bool} (xs ys : PyText)
    (h : ∀ x ∈ xs, p x = true) :
    (xs ++ ys).takeWhile p = xs ++ ys.takeWhile p := by
  induction xs with
  | nil => simp
  | cons x xs' ih =>
    have hx : p x = true := h x (List.mem_cons_self _ _)
    simp only [List.cons_append, List.takeWhile_cons, hx, if_pos]
    rw [ih (fun c hc => h c (List.mem_cons_of_mem _ hc))]

/-- `dropWhile` skips a fully satisfying prefix. -/
theorem dropWhile_append_all {p : Char → Bool} (xs ys : PyText)
    (h : ∀ x ∈ xs, p x = true) :
    (xs ++ ys).dropWhile p = ys.dropWhile p := by
  induction xs with
  | nil => simp
  | cons x xs' ih =>
    have hx : p x = true := h x (List.mem_cons_self _ _)
    simp only [List.cons_append, List.dropWhile_cons, hx, if_pos]
    exact ih (fun c hc => h c (List.mem_cons_of_mem _ hc))

/-- `takeWhile` of a fully satisfying list is the list. -/
theorem takeWhile_all {p : Char → Bool} (xs : PyText)
    (h : ∀ x ∈ xs, p x = true) : xs.takeWhile p = xs := by
  induction xs with
  | nil => rfl
  | cons x xs' ih =>
    simp only [List.takeWhile_cons, h x (List.mem_cons_self _ _), if_pos]
    rw [ih (fun c hc => h c (List.mem_cons_of_mem _ hc))]

/-- `dropWhile` of a fully satisfying list is empty. -/
theorem dropWhile_all {p : Char → Bool} (xs : PyText)
    (h : ∀ x ∈ xs, p x = true) : xs.dropWhile p = [] := by
  induction xs with
  | nil => rfl
  | cons x xs' ih =>
    simp only [List.dropWhile_cons, h x (List.mem_cons_self _ _), if_pos]
    exact ih (fun c hc => h c (List.mem_cons_of_mem _ hc))

/-- A `takeWhile (· ≠ '\n')` stops inside a part containing `'\n'`. -/
theorem takeWhile_ne_append_contains (l ys : PyText) (h : '\n' ∈ l) :
    (l ++ ys).takeWhile (fun c => c ≠ '\n') =
      l.takeWhile (fun c => c ≠ '\n') := by
  induction l with
  | nil => simp at h
  | cons c r ih =>
    by_cases hc : c = '\n'
    · subst hc
      simp [List.takeWhile_cons]
    · have hr : '\n' ∈ r := by
        rcases List.mem_cons.mp h with heq | hr
        · exact absurd heq.symm hc
        · exact hr
      simp only [List.cons_append, List.takeWhile_cons, decide_eq_true_eq, hc]
      rw [if_pos hc, if_pos hc, ih hr]

/-- The whitespace after the last newline: a leading `'\n'` is covered
by a later newline or ends the newline part. -/
theorem wsA_cons_nl (l : PyText) :
    wsAfterLastNl ('\n' :: l) =
      if '\n' ∈ l then wsAfterLastNl l else l := by
  unfold wsAfterLastNl
  by_cases h : '\n' ∈ l
  · rw [if_pos h]
    have hrev : '\n' ∈ l.reverse := List.mem_reverse.mpr h
    rw [List.reverse_cons, takeWhile_ne_append_contains _ _ hrev]
  · rw [if_neg h]
    rw [List.reverse_cons]
    rw [takeWhile_append_all (p := fun c => decide (c ≠ '\n')) _ _
      (fun c hc => by
        have : c ∈ l := List.mem_reverse.mp hc
        simp only [decide_eq_true_eq]
        intro hceq
        exact h (hceq ▸ this))]
    simp

/-- Same computation for a non-newline head. -/
theorem wsA_cons_ne (c : Char) (l : PyText) (hc : c ≠ '\n') :
    wsAfterLastNl (c :: l) =
      if '\n' ∈ l then wsAfterLastNl l else c :: l := by
  unfold wsAfterLastNl
  by_cases h : '\n' ∈ l
  · rw [if_pos h]
    have hrev : '\n' ∈ l.reverse := List.mem_reverse.mpr h
    rw [List.reverse_cons, takeWhile_ne_append_contains _ _ hrev]
  · rw [if_neg h]
    rw [List.reverse_cons]
    rw [takeWhile_append_all (p := fun c => decide (c ≠ '\n')) _ _
      (fun d hd => by
        have : d ∈ l := List.mem_reverse.mp hd
        simp only [decide_eq_true_eq]
        intro hdeq
        exact h (hdeq ▸ this))]
    simp [List.takeWhile_cons, hc]

/-- The whitespace after the last newline contains no newline. -/
theorem wsA_nlFree (run : PyText) : NlFree (wsAfterLastNl run) := by
  intro hmem
  unfold wsAfterLastNl at hmem
  have := List.mem_takeWhile_imp (List.mem_reverse.mp hmem)
  simp at this

/-- The whitespace after the last newline is whitespace. -/
theorem wsA_allWs (run : PyText) (h : AllWs run) :
    AllWs (wsAfterLastNl run) := by
  intro c hc
  unfold wsAfterLastNl at hc
  have h1 : c ∈ run.reverse.takeWhile (fun c => c ≠ '\n') :=
    List.mem_reverse.mp hc
  have h2 : c ∈ run.reverse := (List.takeWhile_sublist _).mem h1
  exact h c (List.mem_reverse.mp h2)

/-- Equation: `collapseNl` passes a non-newline head through. -/
theorem collapseNl_cons_ne (c : Char) (r : PyText) (hc : c ≠ '\n') :
    collapseNl (c :: r) = c :: collapseNl r := by
  simp [collapseNl, collapseNlGo, hc]

/-- Equation: `collapseNl` enters the newline state on `'\n'`. -/
theorem collapseNl_cons_nl (r : PyText) :
    collapseNl ('\n' :: r) = collapseNlGo r true [] false := by
  simp [collapseNl, collapseNlGo]

/-- Run decomposition of the newline-collapse scanner in its in-run
state: it consumes the whitespace run ahead; if the run contains another
newline the match is emitted as `"\n\n"` followed by the whitespace
after the run's last newline, otherwise the pending newline, buffer and
run are emitted verbatim; scanning then continues after the run. -/
theorem collapseNlGo_inNl (rest : PyText) : ∀ (buf : PyText) (m : Bool),
    collapseNlGo rest true buf m =
      if '\n' ∈ rest.takeWhile isPyWs then
        ['\n', '\n'] ++ wsAfterLastNl (rest.takeWhile isPyWs) ++
          collapseNl (rest.dropWhile isPyWs)
      else
        (if m then ['\n', '\n'] else ['\n']) ++ buf.reverse ++
          rest.takeWhile isPyWs ++ collapseNl (rest.dropWhile isPyWs) := by
  induction rest with
  | nil =>
    intro buf m
    simp [collapseNlGo, collapseNl]
  | cons c r ih =>
    intro buf m
    by_cases hnl : c = '\n'
    · subst hnl
      rw [show collapseNlGo ('\n' :: r) true buf m =
          collapseNlGo r true [] true from by simp [collapseNlGo]]
      rw [ih [] true]
      have htw : ('\n' :: r).takeWhile isPyWs =
          '\n' :: r.takeWhile isPyWs := by
        simp [List.takeWhile_cons, (by decide : isPyWs '\n' = true)]
      have hdw : ('\n' :: r).dropWhile isPyWs = r.dropWhile isPyWs := by
        simp [List.dropWhile_cons, (by decide : isPyWs '\n' = true)]
      rw [htw, hdw]
      by_cases hcon : '\n' ∈ r.takeWhile isPyWs
      · rw [if_pos hcon, if_pos (List.mem_cons_of_mem _ hcon),
          wsA_cons_nl, if_pos hcon]
      · rw [if_neg hcon, if_pos (List.mem_cons_self _ _),
          wsA_cons_nl, if_neg hcon]
        simp
    · by_cases hws : isPyWs c = true
      · rw [show collapseNlGo (c :: r) true buf m =
            collapseNlGo r true (c :: buf) m from by
          simp [collapseNlGo, hnl, hws]]
        rw [ih (c :: buf) m]
        have htw : (c :: r).takeWhile isPyWs = c :: r.takeWhile isPyWs := by
          simp [List.takeWhile_cons, hws]
        have hdw : (c :: r).dropWhile isPyWs = r.dropWhile isPyWs := by
          simp [List.dropWhile_cons, hws]
        rw [htw, hdw]
        by_cases hcon : '\n' ∈ r.takeWhile isPyWs
        · rw [if_pos hcon, if_pos (List.mem_cons_of_mem _ hcon),
            wsA_cons_ne c _ hnl, if_pos hcon]
        · have hnc : '\n' ∉ c :: r.takeWhile isPyWs := by
            intro hm
            rcases List.mem_cons.mp hm with heq | hm2
            · exact hnl heq.symm
            · exact hcon hm2
          rw [if_neg hcon, if_neg hnc]
          simp
      · have heq : collapseNlGo (c :: r) true buf m =
            (if m then ['\n', '\n'] else ['\n']) ++ buf.reverse ++
              c :: collapseNlGo r false [] false := by
          cases m <;> simp [collapseNlGo, hnl, hws]
        have htw : (c :: r).takeWhile isPyWs = [] := by
          simp [List.takeWhile_cons, hws]
        have hdw : (c :: r).dropWhile isPyWs = c :: r := by
          simp [List.dropWhile_cons, hws]
        rw [heq, htw, hdw]
        rw [if_neg (show ¬ ('\n' ∈ ([] : PyText)) by simp)]
        rw [collapseNl_cons_ne c r hnl]
        simp only [List.append_nil, List.append_assoc, List.cons_append]
        rfl

/-- A non-whitespace character is not a newline. -/
theorem ne_nl_of_not_ws (a : Char) (h : isPyWs a = false) : a ≠ '\n' := by
  intro heq
  rw [heq] at h
  exact absurd h (by decide)

/-- The head of a `dropWhile isPyWs` result is not whitespace. -/
theorem nonWsHead_dropWhile (l : PyText) : NonWsHead (l.dropWhile isPyWs) := by
  intro c hc
  have h := List.head?_dropWhile_not isPyWs l
  rw [hc] at h
  exact h

/-- `collapseNl` keeps a non-whitespace head. -/
theorem nonWsHead_collapseNl (l : PyText) (h : NonWsHead l) :
    NonWsHead (collapseNl l) := by
  intro c hc
  cases l with
  | nil => simp [collapseNl, collapseNlGo] at hc
  | cons a r =>
    have ha := h a rfl
    rw [collapseNl_cons_ne a r (ne_nl_of_not_ws a ha)] at hc
    have hac : a = c := by simpa using hc
    rwa [← hac]

/-- `takeWhile isPyWs` over a whitespace block followed by a
non-whitespace head. -/
theorem takeWhile_ws_block (w tail : PyText) (hw : AllWs w)
    (ht : NonWsHead tail) : (w ++ tail).takeWhile isPyWs = w := by
  rw [takeWhile_append_all _ _ hw]
  cases tail with
  | nil => simp
  | cons a r => simp [List.takeWhile_cons, ht a rfl]

/-- `dropWhile isPyWs` over a whitespace block followed by a
non-whitespace head. -/
theorem dropWhile_ws_block (w tail : PyText) (hw : AllWs w)
    (ht : NonWsHead tail) : (w ++ tail).dropWhile isPyWs = tail := by
  rw [dropWhile_append_all _ _ hw]
  cases tail with
  | nil => simp
  | cons a r => simp [List.dropWhile_cons, ht a rfl]

/-- `collapseNl` fixes an emitted `"\n\n"` block: two newlines, then
newline-free whitespace, then a fixed continuation with non-whitespace
head. -/
theorem collapseNl_nlnl_block (w tail : PyText) (hwa : AllWs w)
    (hwn : NlFree w) (ht : NonWsHead tail)
    (hfix : collapseNl tail = tail) :
    collapseNl (['\n', '\n'] ++ w ++ tail) = ['\n', '\n'] ++ w ++ tail := by
  rw [show (['\n', '\n'] : PyText) ++ w ++ tail =
      '\n' :: ('\n' :: (w ++ tail)) from by simp]
  rw [collapseNl_cons_nl, collapseNlGo_inNl]
  have htw : ('\n' :: (w ++ tail)).takeWhile isPyWs = '\n' :: w := by
    rw [List.takeWhile_cons, if_pos (by decide), takeWhile_ws_block w tail hwa ht]
  have hdw : ('\n' :: (w ++ tail)).dropWhile isPyWs = tail := by
    rw [List.dropWhile_cons, if_pos (by decide), dropWhile_ws_block w tail hwa ht]
  rw [htw, hdw, if_pos (List.mem_cons_self _ _), wsA_cons_nl, if_neg hwn, hfix]
  simp

/-- `collapseNl` fixes an emitted single-newline block: one newline,
newline-free whitespace, then a fixed continuation. -/
theorem collapseNl_nl_block (w tail : PyText) (hwa : AllWs w)
    (hwn : NlFree w) (ht : NonWsHead tail)
    (hfix : collapseNl tail = tail) :
    collapseNl ('\n' :: (w ++ tail)) = '\n' :: (w ++ tail) := by
  rw [collapseNl_cons_nl, collapseNlGo_inNl]
  have htw : (w ++ tail).takeWhile isPyWs = w := takeWhile_ws_block w tail hwa ht
  have hdw : (w ++ tail).dropWhile isPyWs = tail := dropWhile_ws_block w tail hwa ht
  rw [htw, hdw, if_neg hwn, hfix]
  simp

/-- `collapseNl` is idempotent (fuelled strong induction on length). -/
theorem collapseNl_idem_aux (n : Nat) : ∀ l : PyText, l.length ≤ n →
    collapseNl (collapseNl l) = collapseNl l := by
  induction n with
  | zero =>
    intro l hl
    have : l = [] := List.eq_nil_of_length_eq_zero (Nat.le_zero.mp hl)
    subst this
    rfl
  | succ n ih =>
    intro l hl
    cases l with
    | nil => rfl
    | cons c rest =>
      have hrest : rest.length ≤ n := by
        have := hl
        simp only [List.length_cons] at this
        omega
      by_cases hnl : c = '\n'
      · subst hnl
        rw [collapseNl_cons_nl, collapseNlGo_inNl]
        have hruna : AllWs (rest.takeWhile isPyWs) :=
          fun x hx => List.mem_takeWhile_imp hx
        have hafter : NonWsHead (rest.dropWhile isPyWs) :=
          nonWsHead_dropWhile rest
        have hlenafter : (rest.dropWhile isPyWs).length ≤ n :=
          le_trans (List.dropWhile_sublist _).length_le hrest
        by_cases hcon : '\n' ∈ rest.takeWhile isPyWs
        · rw [if_pos hcon]
          exact collapseNl_nlnl_block _ _ (wsA_allWs _ hruna) (wsA_nlFree _)
            (nonWsHead_collapseNl _ hafter) (ih _ hlenafter)
        · rw [if_neg hcon]
          have hblock := collapseNl_nl_block (rest.takeWhile isPyWs)
            (collapseNl (rest.dropWhile isPyWs)) hruna hcon
            (nonWsHead_collapseNl _ hafter) (ih _ hlenafter)
          simpa using hblock
      · rw [collapseNl_cons_ne c rest hnl, collapseNl_cons_ne c _ hnl,
          ih rest hrest]

/-- `collapseNl` is idempotent. -/
theorem collapseNl_idem (l : PyText) :
    collapseNl (collapseNl l) = collapseNl l :=
  collapseNl_idem_aux l.length l (le_refl _)

/-- Equation: space collapse on the empty list. -/
theorem collapseSpaces_nil : collapseSpaces [] = [] := rfl

/-- Equation: space collapse on a singleton. -/
theorem collapseSpaces_singleton (c : Char) : collapseSpaces [c] = [c] := rfl

/-- Equation: space collapse on two or more characters. -/
theorem collapseSpaces_cons₂ (c1 c2 : Char) (rest : PyText) :
    collapseSpaces (c1 :: c2 :: rest) =
      if c1 = ' ' ∧ c2 = ' ' then collapseSpaces (c2 :: rest)
      else c1 :: collapseSpaces (c2 :: rest) := rfl

/-- Characters of the space-collapsed text come from the original. -/
theorem mem_collapseSpaces (l : PyText) (c : Char)
    (hc : c ∈ collapseSpaces l) : c ∈ l := by
  induction l using collapseSpaces.induct with
  | case1 => simp [collapseSpaces] at hc
  | case2 d => simpa [collapseSpaces] using hc
  | case3 c1 c2 rest h ih =>
    rw [collapseSpaces_cons₂, if_pos h] at hc
    exact List.mem_cons_of_mem _ (ih hc)
  | case4 c1 c2 rest h ih =>
    rw [collapseSpaces_cons₂, if_neg h] at hc
    rcases List.mem_cons.mp hc with heq | hm
    · exact heq ▸ List.mem_cons_self _ _
    · exact List.mem_cons_of_mem _ (ih hm)

/-- Space collapse preserves the head. -/
theorem collapseSpaces_head (l : PyText) :
    (collapseSpaces l).head? = l.head? := by
  induction l using collapseSpaces.induct with
  | case1 => rfl
  | case2 d => rfl
  | case3 c1 c2 rest h ih =>
    rw [collapseSpaces_cons₂, if_pos h, ih]
    simp [h.1, h.2]
  | case4 c1 c2 rest h ih =>
    rw [collapseSpaces_cons₂, if_neg h]
    rfl

/-- Space collapse distributes over an append whose right part does not
start with a space. -/
theorem collapseSpaces_append (x y : PyText)
    (hy : ∀ c, y.head? = some c → c ≠ ' ') :
    collapseSpaces (x ++ y) = collapseSpaces x ++ collapseSpaces y := by
  induction x using collapseSpaces.induct with
  | case1 => simp [collapseSpaces_nil]
  | case2 d =>
    cases y with
    | nil => simp [collapseSpaces_nil]
    | cons b r =>
      have hb : b ≠ ' ' := hy b rfl
      rw [show ([d] : PyText) ++ b :: r = d :: b :: r from rfl]
      rw [collapseSpaces_cons₂, if_neg (fun hconj => hb hconj.2)]
      simp [collapseSpaces_singleton]
  | case3 c1 c2 rest h ih =>
    rw [show (c1 :: c2 :: rest) ++ y = c1 :: c2 :: (rest ++ y) from by simp]
    rw [collapseSpaces_cons₂, if_pos h]
    rw [show c2 :: (rest ++ y) = (c2 :: rest) ++ y from rfl, ih]
    rw [show collapseSpaces (c1 :: c2 :: rest) = collapseSpaces (c2 :: rest)
      from by rw [collapseSpaces_cons₂, if_pos h]]
  | case4 c1 c2 rest h ih =>
    rw [show (c1 :: c2 :: rest) ++ y = c1 :: c2 :: (rest ++ y) from by simp]
    rw [collapseSpaces_cons₂, if_neg h]
    rw [show c2 :: (rest ++ y) = (c2 :: rest) ++ y from rfl, ih]
    rw [show collapseSpaces (c1 :: c2 :: rest) =
        c1 :: collapseSpaces (c2 :: rest)
      from by rw [collapseSpaces_cons₂, if_neg h]]
    simp

/-- Space collapse is idempotent. -/
theorem collapseSpaces_idem (l : PyText) :
    collapseSpaces (collapseSpaces l) = collapseSpaces l := by
  induction l using collapseSpaces.induct with
  | case1 => rfl
  | case2 d => rfl
  | case3 c1 c2 rest h ih =>
    rw [collapseSpaces_cons₂, if_pos h]
    exact ih
  | case4 c1 c2 rest h ih =>
    rw [collapseSpaces_cons₂, if_neg h]
    have hh := collapseSpaces_head (c2 :: rest)
    obtain ⟨z, hz⟩ : ∃ z, collapseSpaces (c2 :: rest) = c2 :: z := by
      cases hcs : collapseSpaces (c2 :: rest) with
      | nil => rw [hcs] at hh; simp at hh
      | cons b z =>
        rw [hcs] at hh
        simp at hh
        exact ⟨z, by rw [hh]⟩
    rw [hz]
    rw [collapseSpaces_cons₂, if_neg h]
    rw [hz] at ih
    rw [ih]

/-- Space collapse passes a non-space head through. -/
theorem collapseSpaces_cons_ne_space (c : Char) (t : PyText) (hc : c ≠ ' ') :
    collapseSpaces (c :: t) = c :: collapseSpaces t := by
  cases t with
  | nil => rw [collapseSpaces_singleton, collapseSpaces_nil]
  | cons b r => rw [collapseSpaces_cons₂, if_neg (fun hconj => hc hconj.1)]


/-- Space collapse preserves being a fixed point of the newline collapse
(fuelled strong induction on length). -/
theorem collapseNl_fixed_collapseSpaces_aux (n : Nat) : ∀ l : PyText,
    l.length ≤ n → collapseNl l = l →
    collapseNl (collapseSpaces l) = collapseSpaces l := by
  induction n with
  | zero =>
    intro l hl _
    have : l = [] := List.eq_nil_of_length_eq_zero (Nat.le_zero.mp hl)
    subst this
    rfl
  | succ n ih =>
    intro l hl hfix
    cases l with
    | nil => rfl
    | cons c rest =>
      have hrest : rest.length ≤ n := by
        simp only [List.length_cons] at hl
        omega
      by_cases hnl : c = '\n'
      · subst hnl
        have hruna : AllWs (rest.takeWhile isPyWs) :=
          fun x hx => List.mem_takeWhile_imp hx
        have hafter : NonWsHead (rest.dropWhile isPyWs) :=
          nonWsHead_dropWhile rest
        have haftsp : ∀ d, (rest.dropWhile isPyWs).head? = some d →
            d ≠ ' ' := by
          intro d hd heq
          have hws := hafter d hd
          rw [heq] at hws
          exact absurd hws (by decide)
        have hlen_aft : (rest.dropWhile isPyWs).length ≤ n :=
          le_trans (List.dropWhile_sublist _).length_le hrest
        rw [collapseNl_cons_nl, collapseNlGo_inNl] at hfix
        by_cases hcon : '\n' ∈ rest.takeWhile isPyWs
        · rw [if_pos hcon] at hfix
          have hrest2 : rest = '\n' ::
              (wsAfterLastNl (rest.takeWhile isPyWs) ++
                collapseNl (rest.dropWhile isPyWs)) := by
            have h0 := hfix.symm
            rw [show (['\n', '\n'] : PyText) ++
                wsAfterLastNl (rest.takeWhile isPyWs) ++
                collapseNl (rest.dropWhile isPyWs) =
              '\n' :: ('\n' :: (wsAfterLastNl (rest.takeWhile isPyWs) ++
                collapseNl (rest.dropWhile isPyWs))) from by simp] at h0
            injection h0 with _ h1
          have hafter_fix : collapseNl (rest.dropWhile isPyWs) =
              rest.dropWhile isPyWs := by
            have h1 : rest.dropWhile isPyWs =
                collapseNl (rest.dropWhile isPyWs) := by
              conv_lhs => rw [hrest2]
              rw [List.dropWhile_cons, if_pos (by decide),
                dropWhile_ws_block _ _ (wsA_allWs _ hruna)
                  (nonWsHead_collapseNl _ hafter)]
            exact h1.symm
          have hr3 : rest = '\n' ::
              (wsAfterLastNl (rest.takeWhile isPyWs) ++
                rest.dropWhile isPyWs) := by
            conv_lhs => rw [hrest2]
            rw [hafter_fix]
          have hcs : collapseSpaces ('\n' :: rest) =
              ['\n', '\n'] ++
                collapseSpaces (wsAfterLastNl (rest.takeWhile isPyWs)) ++
                collapseSpaces (rest.dropWhile isPyWs) := by
            rw [collapseSpaces_cons_ne_space _ _ (by decide)]
            conv_lhs => rw [hr3]
            rw [collapseSpaces_cons_ne_space _ _ (by decide)]
            rw [collapseSpaces_append _ _ haftsp]
            simp
          rw [hcs]
          apply collapseNl_nlnl_block
          · intro d hd
            exact (wsA_allWs _ hruna) d (mem_collapseSpaces _ _ hd)
          · intro hd
            exact (wsA_nlFree _) (mem_collapseSpaces _ _ hd)
          · intro d hd
            apply hafter d
            rw [← collapseSpaces_head]
            exact hd
          · exact ih _ hlen_aft hafter_fix
        · rw [if_neg hcon] at hfix
          have hfix1 : '\n' :: (rest.takeWhile isPyWs ++
              collapseNl (rest.dropWhile isPyWs)) = '\n' :: rest := by
            rw [← hfix]
            simp
          have hrest2 : rest = rest.takeWhile isPyWs ++
              collapseNl (rest.dropWhile isPyWs) := by
            injection hfix1 with _ h1
            exact h1.symm
          have hafter_fix : collapseNl (rest.dropWhile isPyWs) =
              rest.dropWhile isPyWs := by
            have hdecomp := List.takeWhile_append_dropWhile
              (p := isPyWs) (l := rest)
            have h2 : rest.takeWhile isPyWs ++ rest.dropWhile isPyWs =
                rest.takeWhile isPyWs ++
                  collapseNl (rest.dropWhile isPyWs) := by
              rw [hdecomp, ← hrest2]
            exact (List.append_cancel_left h2).symm
          have hr3 : rest = rest.takeWhile isPyWs ++
              rest.dropWhile isPyWs :=
            (List.takeWhile_append_dropWhile (p := isPyWs) (l := rest)).symm
          have hcs : collapseSpaces ('\n' :: rest) =
              '\n' :: (collapseSpaces (rest.takeWhile isPyWs) ++
                collapseSpaces (rest.dropWhile isPyWs)) := by
            rw [collapseSpaces_cons_ne_space _ _ (by decide)]
            conv_lhs => rw [hr3]
            rw [collapseSpaces_append _ _ haftsp]
          rw [hcs]
          apply collapseNl_nl_block
          · intro d hd
            exact hruna d (mem_collapseSpaces _ _ hd)
          · intro hd
            exact hcon (mem_collapseSpaces _ _ hd)
          · intro d hd
            apply hafter d
            rw [← collapseSpaces_head]
            exact hd
          · exact ih _ hlen_aft hafter_fix
      · have hfixrest : collapseNl rest = rest := by
          rw [collapseNl_cons_ne c rest hnl] at hfix
          injection hfix with _ h1
        cases rest with
        | nil =>
          rw [collapseSpaces_singleton, collapseNl_cons_ne c [] hnl]
          rfl
        | cons b r =>
          by_cases hsp : c = ' ' ∧ b = ' '
          · rw [collapseSpaces_cons₂, if_pos hsp]
            exact ih (b :: r) hrest hfixrest
          · rw [collapseSpaces_cons₂, if_neg hsp]
            rw [collapseNl_cons_ne c _ hnl]
            rw [ih (b :: r) hrest hfixrest]

/-- Space collapse preserves fixed points of the newline collapse. -/
theorem collapseNl_fixed_collapseSpaces (l : PyText)
    (h : collapseNl l = l) :
    collapseNl (collapseSpaces l) = collapseSpaces l :=
  collapseNl_fixed_collapseSpaces_aux l.length l (le_refl _) h

/-- The whitespace-normalization stage of the cleanup is idempotent. -/
theorem wsNormalize_idem (t : PyText) :
    wsNormalize (wsNormalize t) = wsNormalize t := by
  unfold wsNormalize
  rw [collapseNl_fixed_collapseSpaces _ (collapseNl_idem t),
    collapseSpaces_idem]

/-- C10 counterexample: the full cleanup is not idempotent.  On
`"Air  Ambulasce"` the double space blocks the artifact substitution;
the whitespace collapse then produces `"Air Ambulasce"`, which the second
application of the cleanup rewrites to `"Air Ambulance"`. -/
theorem clean_text_fast_not_idempotent :
    clean_text_fast (clean_text_fast ("Air  Ambulasce".toList)) ≠
      clean_text_fast ("Air  Ambulasce".toList) := by decide

/-- C10: determinism holds by construction (the cleanup is a pure
function), and the whitespace-collapsing stage `wsNormalize` is
idempotent; the full cleanup `clean_text_fast` is idempotent on every
input whose cleaned output the artifact substitutions leave unchanged.
It is not idempotent in general (see the counterexample). -/
theorem whitespace_normalization_idempotent (t : PyText) :
    wsNormalize (wsNormalize t) = wsNormalize t ∧
    (fixArtifacts (clean_text_fast t) = clean_text_fast t →
      clean_text_fast (clean_text_fast t) = clean_text_fast t) := by
  refine ⟨wsNormalize_idem t, fun h => ?_⟩
  show wsNormalize (fixArtifacts (clean_text_fast t)) = clean_text_fast t
  rw [h]
  show wsNormalize (wsNormalize (fixArtifacts t)) = clean_text_fast t
  rw [wsNormalize_idem]
  rfl

/-- C10 witness: the idempotence theorem evaluated on a concrete input
whose cleaned form the artifact substitutions leave unchanged. -/
theorem whitespace_normalization_idempotent_witness :
    wsNormalize (wsNormalize ("hello  world".toList)) =
      wsNormalize ("hello  world".toList) ∧
    clean_text_fast (clean_text_fast ("hello  world".toList)) =
      clean_text_fast ("hello  world".toList) :=
  ⟨(whitespace_normalization_idempotent ("hello  world".toList)).1,
   (whitespace_normalization_idempotent ("hello  world".toList)).2
     (by decide)⟩
